import Mathlib

/-!
# memleak.c: the allocation loop of `main`

A shallow embedding of `src/memleak.c` from the point where the options have been
parsed (line 75 onwards): the `while` loop, the cleanup phase and the final
summary.  The `getopt_long` loop, `usage` and the `--help` return are not part of
it; a `Config` holds the option variables as that loop leaves them.

The platform is LP64: `unsigned long` and `size_t` are 64 bits wide, `unsigned
int` is 32 bits wide and a pointer occupies 8 bytes.  Every unsigned operation of
the source is written with its explicit reduction.  Times are integers.

What the program cannot decide itself is supplied, one record per pass through the
loop condition, by an `IterEnv`: whether a signal arrived, what `malloc` returned,
whether `realloc` was willing to grow the slab, and what `time(NULL)` returned.
The loop reads `keep_running` only in its condition, so a signal delivered at any
moment of a pass has the effect of the handler running just before the next
evaluation of the condition.
-/

namespace Memleak

/-! ## Platform constants -/

/-- Number of values of `unsigned long` and of `size_t` (LP64). -/
abbrev ULONG_RANGE : Nat := 2 ^ 64

/-- Number of values of `unsigned int`, the argument type of `sleep` and `usleep`. -/
abbrev UINT_RANGE : Nat := 2 ^ 32

/-- The value of `sizeof(void*)` (LP64). -/
abbrev SIZEOF_PTR : Nat := 8

/-- Largest size of a single object, `PTRDIFF_MAX` (LP64). -/
abbrev PTRDIFF_MAX : Nat := 2 ^ 63 - 1

/-! ## Data -/

/-- A non-NULL block address; NULL is `none` in `Option Ptr`. -/
abbrev Ptr := Nat

/-- The option variables of `main` after the `getopt_long` loop (lines 41-45).
`foreground` is assigned but never read and is left out. -/
structure Config where
  mode : String
  size : Nat
  interval_ms : Nat
  count : Nat
  report_interval : Nat
  deriving DecidableEq

/-- The initial values of the option variables (lines 41-45). -/
def Config.defaults : Config :=
  { mode := "leak", size := 64 * 1024, interval_ms := 1000, count := 0, report_interval := 10 }

/-- Everything the program does that is visible from outside: lines written to
stderr and calls into the C library. -/
inductive Event where
  | log_start (mode : String) (size interval_ms count report_interval : Nat)
  | log_count_reached (count : Nat)
  | log_malloc_failed (allocation : Nat)
  | memset (p : Ptr) (size : Nat)
  | log_realloc_failed
  | log_unknown_mode (mode : String)
  | free (p : Ptr)
  | report (now : Int) (allocations leaked_bytes : Nat)
  | sleep (seconds : Nat)
  | usleep (usec : Nat)
  | free_slab
  | summary (allocations leaked_bytes : Nat)
  deriving DecidableEq

/-- The variables of `main` that the loop reads and writes, the global
`keep_running`, and the output produced so far.  `slab` is `none` for the NULL
pointer; otherwise it lists the pointer slots of the slab block, a slot that was
never written being `none`. -/
structure State where
  keep_running : Bool
  allocations : Nat
  leaked_bytes : Nat
  last_report : Int
  slab : Option (List (Option Ptr))
  slab_capacity : Nat
  out : List Event
  deriving DecidableEq

/-- What the environment answers during one pass through the loop. -/
structure IterEnv where
  /-- SIGINT or SIGTERM was delivered since the previous evaluation of the loop condition. -/
  signal : Bool
  /-- The result of `malloc(size)` on line 96. -/
  malloc_result : Option Ptr
  /-- Whether the allocator is willing to satisfy the `realloc` on line 114. -/
  realloc_ok : Bool
  /-- The result of `now_seconds()` on line 141. -/
  now : Int
  deriving DecidableEq

/-- How the `while` loop was left. -/
inductive LoopExit where
  | shutdown
  | count_reached
  | slab_realloc_failed
  | unknown_mode
  deriving DecidableEq

/-- Result of one pass through the loop condition and body. -/
inductive Step where
  | next (s : State)
  | exit (s : State) (why : LoopExit)
  | undefined
  deriving DecidableEq

/-- Result of running the loop against a finite script of environment answers. -/
inductive Outcome where
  | running (s : State)
  | exited (s : State) (why : LoopExit)
  | undefined
  deriving DecidableEq

/-- Result of `main`. -/
inductive MainResult where
  | returned (code : Int) (out : List Event)
  | running
  | undefined
  deriving DecidableEq

/-! ## Operations -/

/-- Append output to the state. -/
def emit (s : State) (evs : List Event) : State :=
  { s with out := s.out ++ evs }

/-- The signal handler (line 21): it clears `keep_running` and touches nothing else. -/
def on_sigint (s : State) : State :=
  { s with keep_running := false }

/-- The sleep at the end of an iteration (lines 149-154), in `unsigned int` arithmetic. -/
def sleep_interval (interval_ms : Nat) : List Event :=
  if interval_ms ≥ 1000 then
    Event.sleep (interval_ms / 1000) ::
      (if interval_ms % 1000 ≠ 0 then [Event.usleep ((interval_ms % 1000) * 1000 % UINT_RANGE)]
       else [])
  else
    [Event.usleep (interval_ms * 1000 % UINT_RANGE)]

/-- Microseconds of pause requested by a list of library calls. -/
def requested_usec : List Event → Nat
  | [] => 0
  | Event.sleep n :: evs => n * 1000000 + requested_usec evs
  | Event.usleep n :: evs => n + requested_usec evs
  | _ :: evs => requested_usec evs

/-- The periodic report (lines 141-146). -/
def periodic_report (cfg : Config) (s : State) (now : Int) : State :=
  if now - s.last_report ≥ (cfg.report_interval : Int) then
    { emit s [Event.report now s.allocations s.leaked_bytes] with last_report := now }
  else s

/-- The tail of a completed iteration (lines 137-154): count the allocation,
account the bytes, report, sleep. -/
def finish (cfg : Config) (s : State) (e : IterEnv) : State :=
  let s1 : State :=
    { s with
      allocations := (s.allocations + 1) % ULONG_RANGE
      leaked_bytes :=
        (s.leaked_bytes +
          (if cfg.mode = "transient" ∨ cfg.mode = "steady" then 0 else cfg.size)) % ULONG_RANGE }
  emit (periodic_report cfg s1 e.now) (sleep_interval cfg.interval_ms)

/-- The C library's answer to `realloc(slab, bytes)`: `true` for a block, `false`
for NULL.  No object is larger than `PTRDIFF_MAX` bytes, so a larger request fails
whatever the environment is willing to do; any other request succeeds or fails as
the environment decides. -/
def realloc (bytes : Nat) (env_ok : Bool) : Bool :=
  decide (bytes ≤ PTRDIFF_MAX) && env_ok

/-- The slots of a block after a successful `realloc` to `n` slots: the old
contents up to the smaller of the two sizes, the rest unwritten. -/
def resize (slots : List (Option Ptr)) (n : Nat) : List (Option Ptr) :=
  slots.take n ++ List.replicate (n - slots.length) none

/-- Result of the `leak-slab` branch (lines 112-123). -/
inductive SlabStore where
  | stored (s : State)
  | realloc_failed (s : State)
  | undefined
  deriving DecidableEq

/-- The test on line 112: slot `allocations` does not exist yet. -/
def needs_growth (s : State) : Prop :=
  (s.allocations + 1) % ULONG_RANGE > s.slab_capacity

instance needs_growth_decidable (s : State) : Decidable (needs_growth s) := by
  unfold needs_growth; exact inferInstance

/-- The capacity asked for on line 113, in `size_t` arithmetic. -/
def grown_capacity (cap : Nat) : Nat :=
  if cap = 0 then 1024 else cap * 2 % ULONG_RANGE

/-- The byte count passed to `realloc` on line 114, in `size_t` arithmetic. -/
def grown_bytes (cap : Nat) : Nat :=
  grown_capacity cap * SIZEOF_PTR % ULONG_RANGE

/-- The `leak-slab` branch (lines 112-123): grow the slab when it is full, then
store `p` in slot `allocations`.  A write through NULL or past the end of the
block is undefined behaviour. -/
def slab_store (s : State) (e : IterEnv) (p : Ptr) : SlabStore :=
  let grown : Option State :=
    if needs_growth s then
      if realloc (grown_bytes s.slab_capacity) e.realloc_ok then
        some { s with
               slab := some (resize (s.slab.getD [])
                              (grown_bytes s.slab_capacity / SIZEOF_PTR))
               slab_capacity := grown_capacity s.slab_capacity }
      else none
    else some s
  match grown with
  | none => SlabStore.realloc_failed (emit s [Event.log_realloc_failed, Event.free p])
  | some s1 =>
    match s1.slab with
    | none => SlabStore.undefined
    | some slots =>
      if s1.allocations < slots.length then
        SlabStore.stored { s1 with slab := some (slots.set s1.allocations (some p)) }
      else SlabStore.undefined

/-- One evaluation of the loop condition followed, when it holds, by one
execution of the loop body (lines 90-155). -/
def iteration (cfg : Config) (s0 : State) (e : IterEnv) : Step :=
  let s := if e.signal then on_sigint s0 else s0
  if s.keep_running = false then Step.exit s LoopExit.shutdown
  else if cfg.count ≠ 0 ∧ s.allocations ≥ cfg.count then
    Step.exit (emit s [Event.log_count_reached cfg.count]) LoopExit.count_reached
  else
    match e.malloc_result with
    | none =>
      Step.next (emit s [Event.log_malloc_failed ((s.allocations + 1) % ULONG_RANGE),
                         Event.sleep 1])
    | some p =>
      let s1 := emit s [Event.memset p cfg.size]
      if cfg.mode = "leak" then Step.next (finish cfg s1 e)
      else if cfg.mode = "leak-slab" then
        match slab_store s1 e p with
        | SlabStore.stored s2 => Step.next (finish cfg s2 e)
        | SlabStore.realloc_failed s2 => Step.exit s2 LoopExit.slab_realloc_failed
        | SlabStore.undefined => Step.undefined
      else if cfg.mode = "transient" then Step.next (finish cfg (emit s1 [Event.free p]) e)
      else if cfg.mode = "steady" then Step.next (finish cfg (emit s1 [Event.free p]) e)
      else
        Step.exit (emit s1 [Event.log_unknown_mode cfg.mode, Event.free p])
          LoopExit.unknown_mode

/-- The `while` loop (lines 90-155) run against a script of environment answers.
`running` means the script ended with the loop still going. -/
def main_loop (cfg : Config) : List IterEnv → State → Outcome
  | [], s => Outcome.running s
  | e :: es, s =>
    match iteration cfg s e with
    | Step.next s1 => main_loop cfg es s1
    | Step.exit s1 why => Outcome.exited s1 why
    | Step.undefined => Outcome.undefined

/-- The body of the cleanup `for` loop (lines 159-161) executed `n` times from
index `i`: the pointers passed to `free`, or `none` when a slot outside the block
or a slot never written is read. -/
def free_slots (slots : List (Option Ptr)) : Nat → Nat → Option (List Ptr)
  | _, 0 => some []
  | i, n + 1 =>
    match slots[i]? with
    | some (some p) =>
      match free_slots slots (i + 1) n with
      | some ps => some (p :: ps)
      | none => none
    | _ => none

/-- The cleanup phase (lines 158-163).  The loop `for (i = 0; i < slab_capacity &&
i < allocations; ++i)` runs `min slab_capacity allocations` times. -/
def cleanup (s : State) : Option State :=
  match s.slab with
  | none => some s
  | some slots =>
    match free_slots slots 0 (min s.slab_capacity s.allocations) with
    | some ps => some (emit s (ps.map Event.free ++ [Event.free_slab]))
    | none => none

/-- The state on entry to the loop (lines 78-88); `t0` is the first `now_seconds()`. -/
def init (cfg : Config) (t0 : Int) : State :=
  { keep_running := true
    allocations := 0
    leaked_bytes := 0
    last_report := t0
    slab := none
    slab_capacity := 0
    out := [Event.log_start cfg.mode cfg.size cfg.interval_ms cfg.count cfg.report_interval] }

/-- Lines 75-167 of `main`: loop, cleanup, final summary, `return 0`. -/
def main (cfg : Config) (t0 : Int) (envs : List IterEnv) : MainResult :=
  match main_loop cfg envs (init cfg t0) with
  | Outcome.running _ => MainResult.running
  | Outcome.undefined => MainResult.undefined
  | Outcome.exited s _ =>
    match cleanup s with
    | none => MainResult.undefined
    | some s1 => MainResult.returned 0 (s1.out ++ [Event.summary s1.allocations s1.leaked_bytes])

/-- The pair printed by the final summary line, when `main` returned. -/
def final_summary : MainResult → Option (Nat × Nat)
  | MainResult.returned _ out =>
    match out.getLast? with
    | some (Event.summary a l) => some (a, l)
    | _ => none
  | _ => none

/-- The handles retained in the slab: the contents of `slab[0 .. allocations-1]`,
or `none` when one of these slots is outside the block or was never written. -/
def retained (s : State) : Option (List Ptr) :=
  match s.slab with
  | none => if s.allocations = 0 then some [] else none
  | some slots => free_slots slots 0 s.allocations

/-- The loop condition has been evaluated to true and the count check passed. -/
def enters_body (cfg : Config) (s : State) (e : IterEnv) : Prop :=
  e.signal = false ∧ s.keep_running = true ∧ (cfg.count = 0 ∨ s.allocations < cfg.count)

/-- The mode string is one of the four the dispatch on lines 107-129 knows. -/
def known_mode (mode : String) : Prop :=
  mode = "leak" ∨ mode = "leak-slab" ∨ mode = "transient" ∨ mode = "steady"

/-- The slots of a slab block of `cap` slots whose first slots hold `hs`. -/
def slots_of (hs : List Ptr) (cap : Nat) : List (Option Ptr) :=
  hs.map some ++ List.replicate (cap - hs.length) none

/-- Shape of the slab bookkeeping when `hs` are the handles stored so far. -/
def SlabInv (s : State) (hs : List Ptr) : Prop :=
  s.allocations = hs.length ∧ s.slab_capacity < 2 ^ 60 ∧ hs.length ≤ s.slab_capacity ∧
  ((s.slab = none ∧ s.slab_capacity = 0) ∨ s.slab = some (slots_of hs s.slab_capacity))

/-- The amount line 138 adds to `leaked_bytes`. -/
def leak_increment (cfg : Config) : Nat :=
  if cfg.mode = "transient" ∨ cfg.mode = "steady" then 0 else cfg.size

/-- The blocks `malloc` handed out over a script, in order. -/
def allocated (envs : List IterEnv) : List Ptr :=
  envs.filterMap (fun e => e.malloc_result)

/-- The blocks at `ps`, each `size` bytes long, are distinct objects that are live
at the same time: every address is a non-NULL 64-bit value, every block ends
inside the address space, no address occurs twice and no two blocks overlap. -/
def distinct_blocks (size : Nat) (ps : List Nat) : Prop :=
  (∀ p ∈ ps, 0 < p ∧ p < ULONG_RANGE ∧ p + size ≤ ULONG_RANGE) ∧ ps.Nodup ∧
  ps.Pairwise (fun p q => p + size ≤ q ∨ q + size ≤ p)

instance distinct_blocks_decidable (size : Nat) (ps : List Nat) :
    Decidable (distinct_blocks size ps) := by
  unfold distinct_blocks; exact inferInstance

/-- The state is one the loop can work on: in `leak-slab` mode the slab is well-shaped. -/
def Safe (cfg : Config) (s : State) : Prop :=
  cfg.mode = "leak-slab" → ∃ hs, SlabInv s hs

/-- With a nonzero count the counter never passes it, and the byte estimate is
the counter times the increment, reduced to 64 bits. -/
def Counted (cfg : Config) (s : State) : Prop :=
  s.allocations ≤ cfg.count ∧
    s.leaked_bytes = s.allocations * leak_increment cfg % ULONG_RANGE

instance enters_body_decidable (cfg : Config) (s : State) (e : IterEnv) :
    Decidable (enters_body cfg s e) := by
  unfold enters_body; exact inferInstance

instance known_mode_decidable (mode : String) : Decidable (known_mode mode) := by
  unfold known_mode; exact inferInstance

/-! ## Sample runs -/

/-- A pass without signal in which `malloc` returns `p` and `realloc` is granted. -/
def pass_ok (p : Ptr) : IterEnv :=
  { signal := false, malloc_result := some p, realloc_ok := true, now := 0 }

/-- A pass without signal in which `malloc` returns NULL. -/
def pass_nomem : IterEnv :=
  { signal := false, malloc_result := none, realloc_ok := true, now := 0 }

/-- A pass before which SIGINT or SIGTERM was delivered. -/
def pass_signal : IterEnv :=
  { signal := true, malloc_result := none, realloc_ok := true, now := 0 }

/-- A pass without signal in which `malloc` returns `p` and `realloc` returns NULL. -/
def pass_nogrow (p : Ptr) : IterEnv :=
  { signal := false, malloc_result := some p, realloc_ok := false, now := 0 }

/-- The options of `--mode=leak --count=3 --size=1024`. -/
def sample_leak : Config :=
  { Config.defaults with count := 3, size := 1024 }

/-- The options of `--mode=transient --count=5 --interval=0`. -/
def sample_transient : Config :=
  { Config.defaults with mode := "transient", count := 5, interval_ms := 0 }

/-- The options of `--mode=leak-slab --size=64 --interval=1500`. -/
def sample_slab : Config :=
  { Config.defaults with mode := "leak-slab", size := 64, interval_ms := 1500 }

/-- The options of `--mode=bogus --count=10`. -/
def sample_bogus : Config :=
  { Config.defaults with mode := "bogus", count := 10 }

/-- The state of `sample_leak` after two blocks and one failed `malloc`. -/
def sample_leak_running : State :=
  { keep_running := true, allocations := 2, leaked_bytes := 2048, last_report := 0,
    slab := none, slab_capacity := 0,
    out := [Event.log_start "leak" 1024 1000 3 10, Event.memset 4096 1024, Event.sleep 1,
      Event.log_malloc_failed 2, Event.sleep 1, Event.memset 8192 1024, Event.sleep 1] }

/-- The state of `sample_transient` after one block. -/
def sample_transient_running : State :=
  { keep_running := true, allocations := 1, leaked_bytes := 0, last_report := 0,
    slab := none, slab_capacity := 0,
    out := [Event.log_start "transient" 65536 0 5 10, Event.memset 4096 65536,
      Event.free 4096, Event.usleep 0] }

/-- The state of `sample_slab` after two blocks and one failed `malloc`. -/
def sample_slab_running : State :=
  { keep_running := true, allocations := 2, leaked_bytes := 128, last_report := 0,
    slab := some (some 4096 :: some 8192 :: List.replicate 1022 none), slab_capacity := 1024,
    out := [Event.log_start "leak-slab" 64 1500 0 10, Event.memset 4096 64, Event.sleep 1,
      Event.usleep 500000, Event.log_malloc_failed 2, Event.sleep 1, Event.memset 8192 64,
      Event.sleep 1, Event.usleep 500000] }

/-! ## Lemmas -/

@[simp]
theorem emit_keep_running (s : State) (evs : List Event) :
    (emit s evs).keep_running = s.keep_running := rfl
@[simp]
theorem emit_allocations : (emit s evs).allocations = s.allocations := rfl
@[simp]
theorem emit_leaked_bytes : (emit s evs).leaked_bytes = s.leaked_bytes := rfl
@[simp]
theorem emit_last_report : (emit s evs).last_report = s.last_report := rfl
@[simp]
theorem emit_slab : (emit s evs).slab = s.slab := rfl
@[simp]
theorem emit_slab_capacity : (emit s evs).slab_capacity = s.slab_capacity := rfl
@[simp]
theorem emit_out : (emit s evs).out = s.out ++ evs := rfl

@[simp]
theorem periodic_report_keep_running (cfg : Config) (s : State) (now : Int) :
    (periodic_report cfg s now).keep_running = s.keep_running := by
  unfold periodic_report; split <;> rfl
@[simp]
theorem periodic_report_allocations :
    (periodic_report cfg s now).allocations = s.allocations := by
  unfold periodic_report; split <;> rfl
@[simp]
theorem periodic_report_leaked_bytes :
    (periodic_report cfg s now).leaked_bytes = s.leaked_bytes := by
  unfold periodic_report; split <;> rfl
@[simp]
theorem periodic_report_slab :
    (periodic_report cfg s now).slab = s.slab := by
  unfold periodic_report; split <;> rfl
@[simp]
theorem periodic_report_slab_capacity :
    (periodic_report cfg s now).slab_capacity = s.slab_capacity := by
  unfold periodic_report; split <;> rfl

@[simp]
theorem finish_keep_running (cfg : Config) (s : State) (e : IterEnv) :
    (finish cfg s e).keep_running = s.keep_running := by
  simp [finish]
@[simp]
theorem finish_allocations :
    (finish cfg s e).allocations = (s.allocations + 1) % ULONG_RANGE := by
  simp [finish]
@[simp]
theorem finish_leaked_bytes :
    (finish cfg s e).leaked_bytes =
      (s.leaked_bytes +
        (if cfg.mode = "transient" ∨ cfg.mode = "steady" then 0 else cfg.size)) % ULONG_RANGE := by
  simp [finish]
@[simp]
theorem finish_slab : (finish cfg s e).slab = s.slab := by
  simp [finish]
@[simp]
theorem finish_slab_capacity : (finish cfg s e).slab_capacity = s.slab_capacity := by
  simp [finish]

theorem iteration_signal (cfg : Config) (s : State) (e : IterEnv) (h : e.signal = true) :
    iteration cfg s e = Step.exit (on_sigint s) LoopExit.shutdown := by
  simp [iteration, h, on_sigint]

theorem iteration_stopped (cfg : Config) (s : State) (e : IterEnv) (h : e.signal = false)
    (hk : s.keep_running = false) :
    iteration cfg s e = Step.exit s LoopExit.shutdown := by
  simp [iteration, h, hk]

theorem iteration_count_reached (cfg : Config) (s : State) (e : IterEnv) (h : e.signal = false)
    (hk : s.keep_running = true) (hc : cfg.count ≠ 0) (ha : cfg.count ≤ s.allocations) :
    iteration cfg s e =
      Step.exit (emit s [Event.log_count_reached cfg.count]) LoopExit.count_reached := by
  simp [iteration, h, hk, hc, ha]

theorem iteration_malloc_failed (cfg : Config) (s : State) (e : IterEnv)
    (h : enters_body cfg s e) (hm : e.malloc_result = none) :
    iteration cfg s e =
      Step.next (emit s [Event.log_malloc_failed ((s.allocations + 1) % ULONG_RANGE),
                         Event.sleep 1]) := by
  obtain ⟨hs, hk, hc⟩ := h
  have : ¬ (cfg.count ≠ 0 ∧ s.allocations ≥ cfg.count) := by omega
  simp [iteration, hs, hk, this, hm]

theorem iteration_leak (cfg : Config) (s : State) (e : IterEnv) (p : Ptr)
    (h : enters_body cfg s e) (hm : e.malloc_result = some p) (hmode : cfg.mode = "leak") :
    iteration cfg s e = Step.next (finish cfg (emit s [Event.memset p cfg.size]) e) := by
  obtain ⟨hs, hk, hc⟩ := h
  have : ¬ (cfg.count ≠ 0 ∧ s.allocations ≥ cfg.count) := by omega
  simp [iteration, hs, hk, this, hm, hmode]

theorem iteration_leak_slab (cfg : Config) (s : State) (e : IterEnv) (p : Ptr)
    (h : enters_body cfg s e) (hm : e.malloc_result = some p) (hmode : cfg.mode = "leak-slab") :
    iteration cfg s e =
      match slab_store (emit s [Event.memset p cfg.size]) e p with
      | SlabStore.stored s2 => Step.next (finish cfg s2 e)
      | SlabStore.realloc_failed s2 => Step.exit s2 LoopExit.slab_realloc_failed
      | SlabStore.undefined => Step.undefined := by
  obtain ⟨hs, hk, hc⟩ := h
  have : ¬ (cfg.count ≠ 0 ∧ s.allocations ≥ cfg.count) := by omega
  simp [iteration, hs, hk, this, hm, hmode]

theorem iteration_freeing (cfg : Config) (s : State) (e : IterEnv) (p : Ptr)
    (h : enters_body cfg s e) (hm : e.malloc_result = some p)
    (hmode : cfg.mode = "transient" ∨ cfg.mode = "steady") :
    iteration cfg s e =
      Step.next (finish cfg (emit s [Event.memset p cfg.size, Event.free p]) e) := by
  obtain ⟨hs, hk, hc⟩ := h
  have : ¬ (cfg.count ≠ 0 ∧ s.allocations ≥ cfg.count) := by omega
  rcases hmode with hmode | hmode <;> simp [iteration, hs, hk, this, hm, hmode, emit]

theorem iteration_unknown (cfg : Config) (s : State) (e : IterEnv) (p : Ptr)
    (h : enters_body cfg s e) (hm : e.malloc_result = some p)
    (hmode : ¬ known_mode cfg.mode) :
    iteration cfg s e =
      Step.exit (emit s [Event.memset p cfg.size, Event.log_unknown_mode cfg.mode, Event.free p])
        LoopExit.unknown_mode := by
  obtain ⟨hs, hk, hc⟩ := h
  have : ¬ (cfg.count ≠ 0 ∧ s.allocations ≥ cfg.count) := by omega
  simp only [known_mode, not_or] at hmode
  obtain ⟨h1, h2, h3, h4⟩ := hmode
  simp [iteration, hs, hk, this, hm, h1, h2, h3, h4, emit]

theorem slots_of_length (hs : List Ptr) (cap : Nat) (h : hs.length ≤ cap) :
    (slots_of hs cap).length = cap := by
  simp [slots_of]; omega

theorem slots_of_set (hs : List Ptr) (cap : Nat) (p : Ptr) (h : hs.length < cap) :
    (slots_of hs cap).set hs.length (some p) = slots_of (hs ++ [p]) cap := by
  unfold slots_of
  obtain ⟨k, hk⟩ : ∃ k, cap - hs.length = k + 1 := ⟨cap - hs.length - 1, by omega⟩
  have hk2 : cap - (hs ++ [p]).length = k := by simp; omega
  rw [hk, hk2]
  simp [List.set_append, List.replicate_succ]

theorem resize_slots_of (hs : List Ptr) (cap n : Nat) (h : hs.length ≤ cap) (hn : cap ≤ n) :
    resize (slots_of hs cap) n = slots_of hs n := by
  unfold resize
  rw [slots_of_length hs cap h, List.take_of_length_le (by rw [slots_of_length hs cap h]; exact hn)]
  unfold slots_of
  rw [List.append_assoc, ← List.replicate_add]
  congr 2
  omega

theorem free_slots_append (pre : List (Option Ptr)) (hs : List Ptr) (post : List (Option Ptr)) :
    free_slots (pre ++ (hs.map some ++ post)) pre.length hs.length = some hs := by
  induction hs generalizing pre with
  | nil => simp [free_slots]
  | cons h t ih =>
    have h1 : (pre ++ some h :: (t.map some ++ post))[pre.length]? = some (some h) := by
      rw [List.getElem?_append_right (Nat.le_refl _)]
      simp
    have h2 := ih (pre ++ [some h])
    simp only [List.length_append, List.length_singleton, List.append_assoc,
      List.singleton_append] at h2
    simp only [List.length_cons, free_slots, List.map_cons, List.cons_append]
    rw [h1, h2]

theorem free_slots_slots_of (hs : List Ptr) (cap : Nat) :
    free_slots (slots_of hs cap) 0 hs.length = some hs := by
  have := free_slots_append [] hs (List.replicate (cap - hs.length) none)
  simpa [slots_of] using this

theorem slab_store_failed (s : State) (e : IterEnv) (p : Ptr) (hg : needs_growth s)
    (hr : realloc (grown_bytes s.slab_capacity) e.realloc_ok = false) :
    slab_store s e p =
      SlabStore.realloc_failed (emit s [Event.log_realloc_failed, Event.free p]) := by
  simp [slab_store, hg, hr]

theorem slab_store_stored (s : State) (e : IterEnv) (p : Ptr) (hs : List Ptr)
    (h : SlabInv s hs)
    (hr : needs_growth s → realloc (grown_bytes s.slab_capacity) e.realloc_ok = true) :
    ∃ cap, hs.length < cap ∧ cap < 2 ^ 60 ∧
      slab_store s e p =
        SlabStore.stored { s with slab := some (slots_of (hs ++ [p]) cap), slab_capacity := cap } := by
  obtain ⟨ha, hc, hle, hslab⟩ := h
  by_cases hg : needs_growth s
  · have hr1 := hr hg
    have hac : hs.length = s.slab_capacity := by
      simp only [needs_growth, ULONG_RANGE] at hg
      rw [ha] at hg
      omega
    have hnew : grown_capacity s.slab_capacity =
        if s.slab_capacity = 0 then 1024 else s.slab_capacity * 2 := by
      simp only [grown_capacity, ULONG_RANGE]
      split
      · rfl
      · omega
    have hbytes : grown_bytes s.slab_capacity = grown_capacity s.slab_capacity * 8 := by
      simp only [grown_bytes, ULONG_RANGE, SIZEOF_PTR]
      rw [hnew]
      split <;> omega
    have hlim : grown_capacity s.slab_capacity < 2 ^ 60 := by
      simp only [realloc, Bool.and_eq_true, decide_eq_true_eq, PTRDIFF_MAX] at hr1
      have := hr1.1
      rw [hbytes] at this
      omega
    have hgt : s.slab_capacity < grown_capacity s.slab_capacity := by
      rw [hnew]; split <;> omega
    have hdiv : grown_bytes s.slab_capacity / SIZEOF_PTR = grown_capacity s.slab_capacity := by
      rw [hbytes]; simp only [SIZEOF_PTR]; omega
    have hres : resize (s.slab.getD []) (grown_capacity s.slab_capacity) =
        slots_of hs (grown_capacity s.slab_capacity) := by
      rcases hslab with ⟨hn, hz⟩ | hsome
      · have hnil : hs = [] := by
          apply List.eq_nil_of_length_eq_zero; omega
        subst hnil
        simp [hn, resize, slots_of]
      · rw [hsome]
        simpa using resize_slots_of hs s.slab_capacity _ hle (Nat.le_of_lt hgt)
    refine ⟨grown_capacity s.slab_capacity, by omega, hlim, ?_⟩
    have hlen : (slots_of hs (grown_capacity s.slab_capacity)).length =
        grown_capacity s.slab_capacity := slots_of_length _ _ (by omega)
    simp only [slab_store, hg, hr1, if_true, hdiv, hres, hlen, ha]
    rw [if_pos (by omega), slots_of_set hs _ p (by omega)]
  · have hlt : hs.length < s.slab_capacity := by
      simp only [needs_growth, ULONG_RANGE] at hg
      rw [ha] at hg
      omega
    have hsome : s.slab = some (slots_of hs s.slab_capacity) := by
      rcases hslab with ⟨_, hz⟩ | hsome
      · omega
      · exact hsome
    refine ⟨s.slab_capacity, hlt, hc, ?_⟩
    have hlen : (slots_of hs s.slab_capacity).length = s.slab_capacity :=
      slots_of_length _ _ hle
    simp only [slab_store, hg, if_false, hsome, hlen, ha]
    rw [if_pos hlt, slots_of_set hs _ p hlt]

theorem slab_store_fields (s : State) (e : IterEnv) (p : Ptr) (s2 : State)
    (h : slab_store s e p = SlabStore.stored s2) :
    s2.allocations = s.allocations ∧ s2.leaked_bytes = s.leaked_bytes ∧
      s2.keep_running = s.keep_running := by
  by_cases hg : needs_growth s
  · by_cases hr : realloc (grown_bytes s.slab_capacity) e.realloc_ok = true
    · simp only [slab_store, hg, hr, if_true] at h
      split at h
      · cases h; exact ⟨rfl, rfl, rfl⟩
      · cases h
    · simp [slab_store, hg, hr] at h
  · simp only [slab_store, hg, if_false] at h
    split at h
    · cases h
    · split at h
      · cases h; exact ⟨rfl, rfl, rfl⟩
      · cases h

theorem slab_store_realloc_failed (s : State) (e : IterEnv) (p : Ptr) (s2 : State)
    (h : slab_store s e p = SlabStore.realloc_failed s2) :
    s2 = emit s [Event.log_realloc_failed, Event.free p] ∧ needs_growth s ∧
      realloc (grown_bytes s.slab_capacity) e.realloc_ok = false := by
  by_cases hg : needs_growth s
  · by_cases hr : realloc (grown_bytes s.slab_capacity) e.realloc_ok = true
    · simp only [slab_store, hg, hr, if_true] at h
      split at h
      · cases h
      · cases h
    · simp only [slab_store, hg, hr, if_true, if_false] at h
      cases h
      exact ⟨rfl, hg, by simpa using hr⟩
  · simp only [slab_store, hg, if_false] at h
    split at h
    · cases h
    · split at h
      · cases h
      · cases h

/-- What a pass through the loop that stays in the loop did to the counters. -/
theorem iteration_next_counters (cfg : Config) (s : State) (e : IterEnv) (s1 : State)
    (h : iteration cfg s e = Step.next s1) :
    enters_body cfg s e ∧ s1.keep_running = true ∧
    ((e.malloc_result = none ∧ s1.allocations = s.allocations ∧
        s1.leaked_bytes = s.leaked_bytes ∧ s1.slab = s.slab ∧
        s1.slab_capacity = s.slab_capacity) ∨
     (∃ p, e.malloc_result = some p ∧ known_mode cfg.mode ∧
        s1.allocations = (s.allocations + 1) % ULONG_RANGE ∧
        s1.leaked_bytes = (s.leaked_bytes + leak_increment cfg) % ULONG_RANGE ∧
        (cfg.mode ≠ "leak-slab" → s1.slab = s.slab ∧ s1.slab_capacity = s.slab_capacity))) := by
  by_cases hsig : e.signal = true
  · rw [iteration_signal cfg s e hsig] at h; cases h
  have hsig : e.signal = false := by simpa using hsig
  by_cases hk : s.keep_running = true
  swap
  · rw [iteration_stopped cfg s e hsig (by simpa using hk)] at h; cases h
  by_cases hc : cfg.count = 0 ∨ s.allocations < cfg.count
  swap
  · rw [iteration_count_reached cfg s e hsig hk (by omega) (by omega)] at h; cases h
  have hb : enters_body cfg s e := ⟨hsig, hk, hc⟩
  refine ⟨hb, ?_⟩
  cases hm : e.malloc_result with
  | none =>
    rw [iteration_malloc_failed cfg s e hb hm] at h
    cases h
    exact ⟨hk, Or.inl ⟨rfl, rfl, rfl, rfl, rfl⟩⟩
  | some p =>
    by_cases hkn : known_mode cfg.mode
    swap
    · rw [iteration_unknown cfg s e p hb hm hkn] at h; cases h
    rcases hkn with hmode | hmode | hmode | hmode
    · rw [iteration_leak cfg s e p hb hm hmode] at h
      cases h
      refine ⟨by simpa using hk, Or.inr ⟨p, rfl, Or.inl hmode, by simp, ?_, ?_⟩⟩
      · simp [leak_increment]
      · intro _; simp
    · rw [iteration_leak_slab cfg s e p hb hm hmode] at h
      split at h
      · rename_i s2 hst
        cases h
        obtain ⟨h1, h2, h3⟩ := slab_store_fields _ _ _ _ hst
        refine ⟨by simpa [h3] using hk, Or.inr ⟨p, rfl, Or.inr (Or.inl hmode), ?_, ?_, ?_⟩⟩
        · simp [h1]
        · simp [h2, leak_increment]
        · intro hne; exact absurd hmode hne
      · cases h
      · cases h
    · rw [iteration_freeing cfg s e p hb hm (Or.inl hmode)] at h
      cases h
      refine ⟨by simpa using hk, Or.inr ⟨p, rfl, Or.inr (Or.inr (Or.inl hmode)), by simp, ?_, ?_⟩⟩
      · simp [leak_increment]
      · intro _; simp
    · rw [iteration_freeing cfg s e p hb hm (Or.inr hmode)] at h
      cases h
      refine ⟨by simpa using hk, Or.inr ⟨p, rfl, Or.inr (Or.inr (Or.inr hmode)), by simp, ?_, ?_⟩⟩
      · simp [leak_increment]
      · intro _; simp

/-- Leaving the loop changes neither the counters nor the slab. -/
theorem iteration_exit_counters (cfg : Config) (s : State) (e : IterEnv) (s1 : State)
    (why : LoopExit) (h : iteration cfg s e = Step.exit s1 why) :
    s1.allocations = s.allocations ∧ s1.leaked_bytes = s.leaked_bytes ∧
      s1.slab = s.slab ∧ s1.slab_capacity = s.slab_capacity := by
  by_cases hsig : e.signal = true
  · rw [iteration_signal cfg s e hsig] at h; cases h; exact ⟨rfl, rfl, rfl, rfl⟩
  have hsig : e.signal = false := by simpa using hsig
  by_cases hk : s.keep_running = true
  swap
  · rw [iteration_stopped cfg s e hsig (by simpa using hk)] at h
    cases h; exact ⟨rfl, rfl, rfl, rfl⟩
  by_cases hc : cfg.count = 0 ∨ s.allocations < cfg.count
  swap
  · rw [iteration_count_reached cfg s e hsig hk (by omega) (by omega)] at h
    cases h; exact ⟨rfl, rfl, rfl, rfl⟩
  have hb : enters_body cfg s e := ⟨hsig, hk, hc⟩
  cases hm : e.malloc_result with
  | none => rw [iteration_malloc_failed cfg s e hb hm] at h; cases h
  | some p =>
    by_cases hkn : known_mode cfg.mode
    swap
    · rw [iteration_unknown cfg s e p hb hm hkn] at h
      cases h; exact ⟨rfl, rfl, rfl, rfl⟩
    rcases hkn with hmode | hmode | hmode | hmode
    · rw [iteration_leak cfg s e p hb hm hmode] at h; cases h
    · rw [iteration_leak_slab cfg s e p hb hm hmode] at h
      split at h
      · cases h
      · rename_i s2 hst
        cases h
        obtain ⟨h1, _, _⟩ := slab_store_realloc_failed _ _ _ _ hst
        subst h1
        exact ⟨rfl, rfl, rfl, rfl⟩
      · cases h
    · rw [iteration_freeing cfg s e p hb hm (Or.inl hmode)] at h; cases h
    · rw [iteration_freeing cfg s e p hb hm (Or.inr hmode)] at h; cases h

@[simp]
theorem allocated_nil : allocated [] = [] := rfl

theorem allocated_cons (e : IterEnv) (es : List IterEnv) :
    allocated (e :: es) = e.malloc_result.toList ++ allocated es := by
  cases h : e.malloc_result <;> simp [allocated, List.filterMap_cons, h]

theorem allocated_append (xs ys : List IterEnv) :
    allocated (xs ++ ys) = allocated xs ++ allocated ys := by
  simp [allocated]

theorem main_loop_nil (cfg : Config) (s : State) : main_loop cfg [] s = Outcome.running s := rfl

theorem main_loop_cons_next (cfg : Config) (s s1 : State) (e : IterEnv) (es : List IterEnv)
    (h : iteration cfg s e = Step.next s1) :
    main_loop cfg (e :: es) s = main_loop cfg es s1 := by
  simp [main_loop, h]

theorem main_loop_cons_exit (cfg : Config) (s s1 : State) (why : LoopExit) (e : IterEnv)
    (es : List IterEnv) (h : iteration cfg s e = Step.exit s1 why) :
    main_loop cfg (e :: es) s = Outcome.exited s1 why := by
  simp [main_loop, h]

theorem main_loop_cons_undefined (cfg : Config) (s : State) (e : IterEnv)
    (es : List IterEnv) (h : iteration cfg s e = Step.undefined) :
    main_loop cfg (e :: es) s = Outcome.undefined := by
  simp [main_loop, h]

/-- A script that leaves the loop running can be continued. -/
theorem main_loop_append (cfg : Config) (xs ys : List IterEnv) (s s1 : State)
    (h : main_loop cfg xs s = Outcome.running s1) :
    main_loop cfg (xs ++ ys) s = main_loop cfg ys s1 := by
  induction xs generalizing s with
  | nil => cases h; rfl
  | cons e es ih =>
    cases hi : iteration cfg s e with
    | next s2 =>
      rw [main_loop_cons_next cfg s s2 e es hi] at h
      rw [List.cons_append, main_loop_cons_next cfg s s2 e _ hi]
      exact ih s2 h
    | exit s2 why => rw [main_loop_cons_exit cfg s s2 why e es hi] at h; cases h
    | undefined => rw [main_loop_cons_undefined cfg s e es hi] at h; cases h

/-- A property kept by every pass through the loop holds of the state in which
the script leaves the program. -/
theorem main_loop_invariant (cfg : Config) (P : State → Prop)
    (hnext : ∀ s e s1, P s → iteration cfg s e = Step.next s1 → P s1)
    (hexit : ∀ s e s1 why, P s → iteration cfg s e = Step.exit s1 why → P s1)
    (envs : List IterEnv) (s : State) (h : P s) :
    (∀ s1, main_loop cfg envs s = Outcome.running s1 → P s1) ∧
    (∀ s1 why, main_loop cfg envs s = Outcome.exited s1 why → P s1) := by
  induction envs generalizing s with
  | nil =>
    refine ⟨fun s1 h1 => ?_, fun s1 why h1 => ?_⟩
    · cases h1; exact h
    · cases h1
  | cons e es ih =>
    cases hi : iteration cfg s e with
    | next s2 =>
      rw [main_loop_cons_next cfg s s2 e es hi]
      exact ih s2 (hnext s e s2 h hi)
    | exit s2 why =>
      rw [main_loop_cons_exit cfg s s2 why e es hi]
      refine ⟨fun s1 h1 => ?_, fun s1 why1 h1 => ?_⟩
      · cases h1
      · cases h1; exact hexit s e s2 why h hi
    | undefined =>
      rw [main_loop_cons_undefined cfg s e es hi]
      refine ⟨fun s1 h1 => ?_, fun s1 why1 h1 => ?_⟩ <;> cases h1

/-- The counters after a script that leaves the loop running: one increment per
block handed out. -/
theorem main_loop_running_counters (cfg : Config) (envs : List IterEnv) (s s1 : State)
    (ha : s.allocations < ULONG_RANGE) (hl : s.leaked_bytes < ULONG_RANGE)
    (h : main_loop cfg envs s = Outcome.running s1) :
    s1.allocations = (s.allocations + (allocated envs).length) % ULONG_RANGE ∧
    s1.leaked_bytes =
      (s.leaked_bytes + (allocated envs).length * leak_increment cfg) % ULONG_RANGE := by
  induction envs generalizing s with
  | nil =>
    cases h
    simp only [ULONG_RANGE] at ha hl
    simp only [allocated_nil, List.length_nil, Nat.zero_mul, Nat.add_zero, ULONG_RANGE]
    omega
  | cons e es ih =>
    cases hi : iteration cfg s e with
    | next s2 =>
      rw [main_loop_cons_next cfg s s2 e es hi] at h
      obtain ⟨_, _, hc⟩ := iteration_next_counters cfg s e s2 hi
      rcases hc with ⟨hm, h1, h2, _, _⟩ | ⟨p, hm, _, h1, h2, _⟩
      · have := ih s2 (by rw [h1]; exact ha) (by rw [h2]; exact hl) h
        rw [allocated_cons, hm]
        simpa [h1, h2] using this
      · have := ih s2 (by rw [h1]; exact Nat.mod_lt _ (by norm_num))
          (by rw [h2]; exact Nat.mod_lt _ (by norm_num)) h
        rw [allocated_cons, hm, this.1, this.2, h1, h2]
        simp only [Option.toList_some, List.singleton_append, List.length_cons]
        constructor
        · rw [Nat.mod_add_mod]; congr 1; omega
        · rw [Nat.mod_add_mod]; congr 1; rw [Nat.succ_mul]; omega
    | exit s2 why => rw [main_loop_cons_exit cfg s s2 why e es hi] at h; cases h
    | undefined => rw [main_loop_cons_undefined cfg s e es hi] at h; cases h

theorem distinct_blocks_length (size : Nat) (ps : List Nat) (h : distinct_blocks size ps) :
    ps.length < ULONG_RANGE := by
  obtain ⟨hr, hnd, _⟩ := h
  have hsub : ps.toFinset ⊆ Finset.Ico 1 ULONG_RANGE := by
    intro p hp
    rw [List.mem_toFinset] at hp
    rw [Finset.mem_Ico]
    exact ⟨(hr p hp).1, (hr p hp).2.1⟩
  have hcard := Finset.card_le_card hsub
  rw [List.toFinset_card_of_nodup hnd, Nat.card_Ico] at hcard
  simp only [ULONG_RANGE] at hcard ⊢
  omega

theorem distinct_blocks_bytes (size : Nat) (ps : List Nat) (h : distinct_blocks size ps) :
    ps.length * size < ULONG_RANGE := by
  obtain ⟨hr, hnd, hpw⟩ := h
  have hsym : Symmetric (fun p q : Nat => p + size ≤ q ∨ q + size ≤ p) := by
    intro a b hab
    exact hab.symm
  have hdisj : ∀ x ∈ ps.toFinset, ∀ y ∈ ps.toFinset, x ≠ y →
      Disjoint (Finset.Ico x (x + size)) (Finset.Ico y (y + size)) := by
    intro x hx y hy hxy
    rw [List.mem_toFinset] at hx hy
    have hR : x + size ≤ y ∨ y + size ≤ x := hpw.forall hsym hx hy hxy
    rw [Finset.disjoint_left]
    intro a ha hb
    rw [Finset.mem_Ico] at ha hb
    omega
  have hsub : ps.toFinset.biUnion (fun p => Finset.Ico p (p + size)) ⊆
      Finset.Ico 1 ULONG_RANGE := by
    intro a ha
    rw [Finset.mem_biUnion] at ha
    obtain ⟨p, hp, hap⟩ := ha
    rw [List.mem_toFinset] at hp
    rw [Finset.mem_Ico] at hap ⊢
    obtain ⟨h0, _, h2⟩ := hr p hp
    exact ⟨by omega, by omega⟩
  have hcard := Finset.card_le_card hsub
  rw [Finset.card_biUnion hdisj, Nat.card_Ico] at hcard
  simp only [Nat.card_Ico, Nat.add_sub_cancel_left, Finset.sum_const, smul_eq_mul,
    List.toFinset_card_of_nodup hnd] at hcard
  simp only [ULONG_RANGE] at hcard ⊢
  omega

theorem SlabInv_same_slab {s s1 : State} {hs : List Ptr} (h : SlabInv s hs)
    (ha : s1.allocations = s.allocations) (hslab : s1.slab = s.slab)
    (hcap : s1.slab_capacity = s.slab_capacity) : SlabInv s1 hs := by
  unfold SlabInv at h ⊢
  rw [ha, hslab, hcap]
  exact h

theorem SlabInv_init (cfg : Config) (t0 : Int) : SlabInv (init cfg t0) [] := by
  refine ⟨rfl, ?_, ?_, Or.inl ⟨rfl, rfl⟩⟩
  · simp [init]
  · simp [init]

/-- In `leak-slab` mode with a well-shaped slab, a growth request is refused only
by the environment or because it exceeds `PTRDIFF_MAX`, which needs at least
`2 ^ 59` stored handles. -/
theorem SlabInv_refused {s : State} {hs : List Ptr} (h : SlabInv s hs) (ok : Bool)
    (hg : needs_growth s) (hr : realloc (grown_bytes s.slab_capacity) ok = false) :
    ok = false ∨ 2 ^ 59 ≤ s.allocations := by
  obtain ⟨ha, hc, hle, _⟩ := h
  cases ok with
  | false => exact Or.inl rfl
  | true =>
    right
    simp only [needs_growth, ULONG_RANGE] at hg
    simp only [realloc, Bool.and_true, decide_eq_false_iff_not, PTRDIFF_MAX, grown_bytes,
      grown_capacity, ULONG_RANGE, SIZEOF_PTR] at hr
    split at hr <;> omega

/-- One pass through the loop in `leak-slab` mode keeps the slab well-shaped,
appends the block of a completed iteration, and is never undefined. -/
theorem iteration_slab_inv (cfg : Config) (s : State) (e : IterEnv) (hs : List Ptr)
    (hmode : cfg.mode = "leak-slab") (h : SlabInv s hs) :
    (∃ s1 why, iteration cfg s e = Step.exit s1 why ∧ SlabInv s1 hs ∧
        (why = LoopExit.slab_realloc_failed →
          e.realloc_ok = false ∨ 2 ^ 59 ≤ s.allocations)) ∨
    (∃ s1, iteration cfg s e = Step.next s1 ∧ SlabInv s1 (hs ++ e.malloc_result.toList)) := by
  by_cases hsig : e.signal = true
  · left
    exact ⟨_, _, iteration_signal cfg s e hsig, SlabInv_same_slab h rfl rfl rfl, by intro hw; cases hw⟩
  have hsig : e.signal = false := by simpa using hsig
  by_cases hk : s.keep_running = true
  swap
  · left
    exact ⟨_, _, iteration_stopped cfg s e hsig (by simpa using hk), h,
      by intro hw; cases hw⟩
  by_cases hc : cfg.count = 0 ∨ s.allocations < cfg.count
  swap
  · left
    exact ⟨_, _, iteration_count_reached cfg s e hsig hk (by omega) (by omega),
      SlabInv_same_slab h rfl rfl rfl, by intro hw; cases hw⟩
  have hb : enters_body cfg s e := ⟨hsig, hk, hc⟩
  cases hm : e.malloc_result with
  | none =>
    right
    exact ⟨_, iteration_malloc_failed cfg s e hb hm, by simpa using SlabInv_same_slab h rfl rfl rfl⟩
  | some p =>
    have h1 : SlabInv (emit s [Event.memset p cfg.size]) hs := SlabInv_same_slab h rfl rfl rfl
    rw [iteration_leak_slab cfg s e p hb hm hmode]
    by_cases hr : needs_growth (emit s [Event.memset p cfg.size]) ∧
        realloc (grown_bytes (emit s [Event.memset p cfg.size]).slab_capacity) e.realloc_ok
          = false
    · left
      rw [slab_store_failed _ e p hr.1 hr.2]
      exact ⟨_, _, rfl, SlabInv_same_slab h rfl rfl rfl, fun _ => SlabInv_refused h1 e.realloc_ok hr.1 hr.2⟩
    · right
      have hr1 : needs_growth (emit s [Event.memset p cfg.size]) →
          realloc (grown_bytes (emit s [Event.memset p cfg.size]).slab_capacity) e.realloc_ok
            = true := by
        intro hg
        by_contra hcon
        exact hr ⟨hg, by simpa using hcon⟩
      obtain ⟨cap, hlt, hcap, hst⟩ := slab_store_stored _ e p hs h1 hr1
      rw [hst]
      refine ⟨_, rfl, ?_⟩
      obtain ⟨ha, _, _, _⟩ := h
      refine ⟨?_, ?_, ?_, Or.inr ?_⟩
      · simp only [finish_allocations, emit_allocations, ha, ULONG_RANGE, Option.toList_some,
          List.length_append, List.length_singleton]
        omega
      · simpa using hcap
      · simp only [Option.toList_some, List.length_append, List.length_singleton,
          finish_slab_capacity]
        omega
      · simp

/-- The slab along a whole script in `leak-slab` mode: while the loop runs it holds
the blocks handed out so far, when the loop is left it holds the blocks handed out
before the pass that left it, and the run is never undefined. -/
theorem main_loop_slab_inv (cfg : Config) (hmode : cfg.mode = "leak-slab")
    (envs : List IterEnv) (s : State) (hs : List Ptr) (h : SlabInv s hs) :
    (∀ s1, main_loop cfg envs s = Outcome.running s1 → SlabInv s1 (hs ++ allocated envs)) ∧
    (∀ s1 why, main_loop cfg envs s = Outcome.exited s1 why →
      ∃ pre e rest, envs = pre ++ e :: rest ∧ SlabInv s1 (hs ++ allocated pre)) ∧
    main_loop cfg envs s ≠ Outcome.undefined := by
  induction envs generalizing s hs with
  | nil =>
    refine ⟨fun s1 h1 => ?_, fun s1 why h1 => ?_, ?_⟩
    · cases h1; simpa using h
    · cases h1
    · simp [main_loop]
  | cons e es ih =>
    rcases iteration_slab_inv cfg s e hs hmode h with ⟨s2, why, hi, hinv, _⟩ | ⟨s2, hi, hinv⟩
    · rw [main_loop_cons_exit cfg s s2 why e es hi]
      refine ⟨fun s1 h1 => ?_, fun s1 why1 h1 => ?_, ?_⟩
      · cases h1
      · cases h1
        exact ⟨[], e, es, rfl, by simpa using hinv⟩
      · simp
    · rw [main_loop_cons_next cfg s s2 e es hi]
      obtain ⟨ih1, ih2, ih3⟩ := ih s2 _ hinv
      refine ⟨fun s1 h1 => ?_, fun s1 why1 h1 => ?_, ih3⟩
      · have := ih1 s1 h1
        rwa [allocated_cons, ← List.append_assoc]
      · obtain ⟨pre, x, rest, hes, hp⟩ := ih2 s1 why1 h1
        refine ⟨e :: pre, x, rest, by rw [hes]; rfl, ?_⟩
        rwa [allocated_cons, ← List.append_assoc]

/-- Outside `leak-slab` mode no pass through the loop is undefined. -/
theorem iteration_defined (cfg : Config) (s : State) (e : IterEnv)
    (hmode : cfg.mode ≠ "leak-slab") : iteration cfg s e ≠ Step.undefined := by
  intro h
  by_cases hsig : e.signal = true
  · rw [iteration_signal cfg s e hsig] at h; cases h
  have hsig : e.signal = false := by simpa using hsig
  by_cases hk : s.keep_running = true
  swap
  · rw [iteration_stopped cfg s e hsig (by simpa using hk)] at h; cases h
  by_cases hc : cfg.count = 0 ∨ s.allocations < cfg.count
  swap
  · rw [iteration_count_reached cfg s e hsig hk (by omega) (by omega)] at h; cases h
  have hb : enters_body cfg s e := ⟨hsig, hk, hc⟩
  cases hm : e.malloc_result with
  | none => rw [iteration_malloc_failed cfg s e hb hm] at h; cases h
  | some p =>
    by_cases hkn : known_mode cfg.mode
    swap
    · rw [iteration_unknown cfg s e p hb hm hkn] at h; cases h
    rcases hkn with hl | hl | hl | hl
    · rw [iteration_leak cfg s e p hb hm hl] at h; cases h
    · exact hmode hl
    · rw [iteration_freeing cfg s e p hb hm (Or.inl hl)] at h; cases h
    · rw [iteration_freeing cfg s e p hb hm (Or.inr hl)] at h; cases h

theorem main_loop_defined (cfg : Config) (hmode : cfg.mode ≠ "leak-slab")
    (envs : List IterEnv) (s : State) : main_loop cfg envs s ≠ Outcome.undefined := by
  induction envs generalizing s with
  | nil => simp [main_loop]
  | cons e es ih =>
    cases hi : iteration cfg s e with
    | next s2 => rw [main_loop_cons_next cfg s s2 e es hi]; exact ih s2
    | exit s2 why => rw [main_loop_cons_exit cfg s s2 why e es hi]; simp
    | undefined => exact absurd hi (iteration_defined cfg s e hmode)

theorem Safe_init (cfg : Config) (t0 : Int) : Safe cfg (init cfg t0) :=
  fun _ => ⟨[], SlabInv_init cfg t0⟩

/-- A pass through the loop body whose `malloc` succeeded, in a known mode: either
the iteration completes, or `leak-slab` could not grow the slab. -/
theorem iteration_success (cfg : Config) (s : State) (e : IterEnv) (p : Ptr)
    (hkn : known_mode cfg.mode) (hsafe : Safe cfg s) (hb : enters_body cfg s e)
    (hm : e.malloc_result = some p) :
    (∃ s1, iteration cfg s e = Step.next s1 ∧ Safe cfg s1 ∧ s1.keep_running = true ∧
        s1.allocations = (s.allocations + 1) % ULONG_RANGE) ∨
    (cfg.mode = "leak-slab" ∧
      (e.realloc_ok = false ∨ 2 ^ 59 ≤ s.allocations) ∧
      ∃ s1, iteration cfg s e = Step.exit s1 LoopExit.slab_realloc_failed ∧
        s1.allocations = s.allocations) := by
  by_cases hmode : cfg.mode = "leak-slab"
  · obtain ⟨hs, hinv⟩ := hsafe hmode
    rcases iteration_slab_inv cfg s e hs hmode hinv with ⟨s2, why, hi, hinv2, hwhy⟩ | ⟨s2, hi, hinv2⟩
    · right
      have hwhy2 : why = LoopExit.slab_realloc_failed := by
        have hi2 := hi
        rw [iteration_leak_slab cfg s e p hb hm hmode] at hi2
        split at hi2
        · cases hi2
        · cases hi2; rfl
        · cases hi2
      subst hwhy2
      exact ⟨hmode, hwhy rfl, s2, hi, (iteration_exit_counters cfg s e s2 _ hi).1⟩
    · left
      obtain ⟨_, hk2, hc⟩ := iteration_next_counters cfg s e s2 hi
      rcases hc with ⟨hm2, _⟩ | ⟨q, _, _, ha, _⟩
      · rw [hm] at hm2; cases hm2
      · exact ⟨s2, hi, fun _ => ⟨_, hinv2⟩, hk2, ha⟩
  · left
    have hsafe2 : ∀ s1 : State, Safe cfg s1 := fun s1 hm1 => absurd hm1 hmode
    rcases hkn with hl | hl | hl | hl
    · exact ⟨_, iteration_leak cfg s e p hb hm hl, hsafe2 _, by simpa using hb.2.1, by simp⟩
    · exact absurd hl hmode
    · exact ⟨_, iteration_freeing cfg s e p hb hm (Or.inl hl), hsafe2 _,
        by simpa using hb.2.1, by simp⟩
    · exact ⟨_, iteration_freeing cfg s e p hb hm (Or.inr hl), hsafe2 _,
        by simpa using hb.2.1, by simp⟩

theorem Safe_same_slab {cfg : Config} {s s1 : State} (h : Safe cfg s)
    (ha : s1.allocations = s.allocations) (hslab : s1.slab = s.slab)
    (hcap : s1.slab_capacity = s.slab_capacity) : Safe cfg s1 := by
  intro hm
  obtain ⟨hs, hinv⟩ := h hm
  exact ⟨hs, SlabInv_same_slab hinv ha hslab hcap⟩

/-- With a nonzero count and no signal, a script that hands out the missing
blocks and then offers one more pass ends the loop: at exactly `count`
allocations, unless `leak-slab` could not grow the slab before that. -/
theorem main_loop_reaches_count (cfg : Config) (hkn : known_mode cfg.mode)
    (hc0 : 0 < cfg.count) (hcM : cfg.count < ULONG_RANGE)
    (pre : List IterEnv) (e : IterEnv) (rest : List IterEnv) (s : State)
    (hk : s.keep_running = true) (hsafe : Safe cfg s)
    (hsig : ∀ x ∈ pre, x.signal = false) (hsige : e.signal = false)
    (hn : s.allocations + (allocated pre).length = cfg.count) :
    ∃ s1 why, main_loop cfg (pre ++ e :: rest) s = Outcome.exited s1 why ∧
      ((why = LoopExit.count_reached ∧ s1.allocations = cfg.count) ∨
       (why = LoopExit.slab_realloc_failed ∧ cfg.mode = "leak-slab" ∧
         s1.allocations < cfg.count ∧
         ((∃ x ∈ pre, x.realloc_ok = false) ∨ 2 ^ 59 < cfg.count))) := by
  induction pre generalizing s with
  | nil =>
    simp only [allocated_nil, List.length_nil, Nat.add_zero] at hn
    refine ⟨emit s [Event.log_count_reached cfg.count], LoopExit.count_reached, ?_,
      Or.inl ⟨rfl, ?_⟩⟩
    · rw [List.nil_append]
      exact main_loop_cons_exit cfg s _ _ e rest
        (iteration_count_reached cfg s e hsige hk (by omega) (by omega))
    · simpa using hn
  | cons a pre ih =>
    have hsiga : a.signal = false := hsig a (List.mem_cons_self _ _)
    have hsig2 : ∀ x ∈ pre, x.signal = false := fun x hx => hsig x (List.mem_cons_of_mem _ hx)
    rw [List.cons_append]
    by_cases hreach : cfg.count ≤ s.allocations
    · refine ⟨emit s [Event.log_count_reached cfg.count], LoopExit.count_reached,
        main_loop_cons_exit cfg s _ _ a _
          (iteration_count_reached cfg s a hsiga hk (by omega) hreach), Or.inl ⟨rfl, ?_⟩⟩
      simp only [emit_allocations]
      omega
    · have hb : enters_body cfg s a := ⟨hsiga, hk, Or.inr (by omega)⟩
      cases hm : a.malloc_result with
      | none =>
        rw [main_loop_cons_next cfg s _ a _ (iteration_malloc_failed cfg s a hb hm)]
        rw [allocated_cons, hm] at hn
        obtain ⟨s1, why, h1, h2⟩ := ih (emit s _) (by simpa using hk)
          (Safe_same_slab hsafe rfl rfl rfl) hsig2 (by simpa using hn)
        refine ⟨s1, why, h1, ?_⟩
        rcases h2 with h2 | ⟨h2, h3, h4, h5⟩
        · exact Or.inl h2
        · refine Or.inr ⟨h2, h3, h4, ?_⟩
          rcases h5 with ⟨x, hx, hxr⟩ | h5
          · exact Or.inl ⟨x, List.mem_cons_of_mem _ hx, hxr⟩
          · exact Or.inr h5
      | some p =>
        rw [allocated_cons, hm] at hn
        simp only [Option.toList_some, List.singleton_append, List.length_cons] at hn
        simp only [ULONG_RANGE] at hcM
        rcases iteration_success cfg s a p hkn hsafe hb hm with
          ⟨s2, hi, hsafe2, hk2, ha2⟩ | ⟨hmode, hwhy, s2, hi, ha2⟩
        · rw [main_loop_cons_next cfg s s2 a _ hi]
          have ha3 : s2.allocations = s.allocations + 1 := by
            rw [ha2]; simp only [ULONG_RANGE]; omega
          obtain ⟨s1, why, h1, h2⟩ := ih s2 hk2 hsafe2 hsig2 (by omega)
          refine ⟨s1, why, h1, ?_⟩
          rcases h2 with h2 | ⟨h2, h3, h4, h5⟩
          · exact Or.inl h2
          · refine Or.inr ⟨h2, h3, h4, ?_⟩
            rcases h5 with ⟨x, hx, hxr⟩ | h5
            · exact Or.inl ⟨x, List.mem_cons_of_mem _ hx, hxr⟩
            · exact Or.inr h5
        · refine ⟨s2, LoopExit.slab_realloc_failed, main_loop_cons_exit cfg s s2 _ a _ hi,
            Or.inr ⟨rfl, hmode, by omega, ?_⟩⟩
          rcases hwhy with hwhy | hwhy
          · exact Or.inl ⟨a, List.mem_cons_self _ _, hwhy⟩
          · exact Or.inr (by omega)

/-- With no signal, every growth request granted when it fits and the count not
yet reached, the loop is still running at the end of the script. -/
theorem main_loop_keeps_running (cfg : Config) (hkn : known_mode cfg.mode)
    (envs : List IterEnv) (s : State) (hk : s.keep_running = true) (hsafe : Safe cfg s)
    (hsig : ∀ x ∈ envs, x.signal = false)
    (hcount : cfg.count = 0 ∨ s.allocations + envs.length ≤ cfg.count)
    (hre : cfg.mode = "leak-slab" →
      (∀ x ∈ envs, x.realloc_ok = true) ∧ s.allocations + envs.length ≤ 2 ^ 59) :
    ∃ s1, main_loop cfg envs s = Outcome.running s1 := by
  induction envs generalizing s with
  | nil => exact ⟨s, rfl⟩
  | cons a es ih =>
    have hsiga : a.signal = false := hsig a (List.mem_cons_self _ _)
    have hsig2 : ∀ x ∈ es, x.signal = false := fun x hx => hsig x (List.mem_cons_of_mem _ hx)
    simp only [List.length_cons] at hcount hre
    have hb : enters_body cfg s a := ⟨hsiga, hk, by omega⟩
    cases hm : a.malloc_result with
    | none =>
      rw [main_loop_cons_next cfg s _ a _ (iteration_malloc_failed cfg s a hb hm)]
      refine ih (emit s _) (by simpa using hk) (Safe_same_slab hsafe rfl rfl rfl) hsig2 ?_ ?_
      · simp only [emit_allocations]; omega
      · intro hmode
        obtain ⟨h1, h2⟩ := hre hmode
        exact ⟨fun x hx => h1 x (List.mem_cons_of_mem _ hx), by simp only [emit_allocations]; omega⟩
    | some p =>
      rcases iteration_success cfg s a p hkn hsafe hb hm with
        ⟨s2, hi, hsafe2, hk2, ha2⟩ | ⟨hmode, hwhy, _⟩
      · rw [main_loop_cons_next cfg s s2 a _ hi]
        have ha3 : s2.allocations ≤ s.allocations + 1 := by
          rw [ha2]; exact Nat.mod_le _ _
        refine ih s2 hk2 hsafe2 hsig2 (by omega) ?_
        intro hmode
        obtain ⟨h1, h2⟩ := hre hmode
        exact ⟨fun x hx => h1 x (List.mem_cons_of_mem _ hx), by omega⟩
      · obtain ⟨h1, h2⟩ := hre hmode
        have := h1 a (List.mem_cons_self _ _)
        rcases hwhy with hwhy | hwhy
        · rw [this] at hwhy; cases hwhy
        · omega

theorem Counted_init (cfg : Config) (t0 : Int) : Counted cfg (init cfg t0) := by
  simp [Counted, init]

theorem counted_invariant (cfg : Config) (hc0 : 0 < cfg.count) (hcM : cfg.count < ULONG_RANGE)
    (envs : List IterEnv) (s : State) (h : Counted cfg s) :
    (∀ s1, main_loop cfg envs s = Outcome.running s1 → Counted cfg s1) ∧
    (∀ s1 why, main_loop cfg envs s = Outcome.exited s1 why → Counted cfg s1) := by
  apply main_loop_invariant cfg (Counted cfg) _ _ envs s h
  · intro s e s1 hP hi
    obtain ⟨hb, _, hc⟩ := iteration_next_counters cfg s e s1 hi
    obtain ⟨hP1, hP2⟩ := hP
    rcases hc with ⟨_, h1, h2, _, _⟩ | ⟨p, _, _, h1, h2, _⟩
    · exact ⟨by rw [h1]; exact hP1, by rw [h1, h2]; exact hP2⟩
    · have hlt : s.allocations < cfg.count := by
        rcases hb.2.2 with h0 | hlt
        · omega
        · exact hlt
      simp only [ULONG_RANGE] at hcM
      have h3 : s1.allocations = s.allocations + 1 := by
        rw [h1]; simp only [ULONG_RANGE]; omega
      refine ⟨by omega, ?_⟩
      rw [h2, h3, hP2, Nat.succ_mul, Nat.mod_add_mod]
  · intro s e s1 why hP hi
    obtain ⟨h1, h2, _, _⟩ := iteration_exit_counters cfg s e s1 why hi
    exact ⟨by rw [h1]; exact hP.1, by rw [h1, h2]; exact hP.2⟩

/-- Outside `leak-slab` mode the slab stays NULL. -/
theorem slab_stays_null (cfg : Config) (hmode : cfg.mode ≠ "leak-slab")
    (envs : List IterEnv) (s : State) (h : s.slab = none) :
    (∀ s1, main_loop cfg envs s = Outcome.running s1 → s1.slab = none) ∧
    (∀ s1 why, main_loop cfg envs s = Outcome.exited s1 why → s1.slab = none) := by
  apply main_loop_invariant cfg (fun s => s.slab = none) _ _ envs s h
  · intro s e s1 hP hi
    obtain ⟨_, _, hc⟩ := iteration_next_counters cfg s e s1 hi
    rcases hc with ⟨_, _, _, h1, _⟩ | ⟨p, _, _, _, _, h1⟩
    · rw [h1]; exact hP
    · rw [(h1 hmode).1]; exact hP
  · intro s e s1 why hP hi
    obtain ⟨_, _, h1, _⟩ := iteration_exit_counters cfg s e s1 why hi
    rw [h1]; exact hP

theorem cleanup_null (s : State) (h : s.slab = none) : cleanup s = some s := by
  simp [cleanup, h]

theorem retained_of_inv {s : State} {hs : List Ptr} (h : SlabInv s hs) :
    retained s = some hs := by
  obtain ⟨ha, _, hle, hslab⟩ := h
  rcases hslab with ⟨hn, hz⟩ | hsome
  · have hnil : hs = [] := by
      apply List.eq_nil_of_length_eq_zero; omega
    subst hnil
    simp [retained, hn, ha]
  · simp only [retained, hsome, ha]
    exact free_slots_slots_of hs _

/-- The cleanup phase on a well-shaped slab: every retained handle is passed to
`free` once, in slot order, and then the slab block itself. -/
theorem cleanup_of_inv {s : State} {hs : List Ptr} (h : SlabInv s hs) :
    cleanup s = some (emit s (hs.map Event.free ++
      (if s.slab = none then [] else [Event.free_slab]))) := by
  obtain ⟨ha, _, hle, hslab⟩ := h
  rcases hslab with ⟨hn, hz⟩ | hsome
  · have hnil : hs = [] := by
      apply List.eq_nil_of_length_eq_zero; omega
    subst hnil
    cases s
    simp_all [cleanup, emit]
  · have hmin : min s.slab_capacity s.allocations = hs.length := by
      rw [ha]; omega
    simp only [cleanup, hsome, hmin, free_slots_slots_of hs _]
    simp

theorem main_of_exited (cfg : Config) (t0 : Int) (envs : List IterEnv) (s s1 : State)
    (why : LoopExit) (h : main_loop cfg envs (init cfg t0) = Outcome.exited s why)
    (hc : cleanup s = some s1) :
    main cfg t0 envs =
      MainResult.returned 0 (s1.out ++ [Event.summary s1.allocations s1.leaked_bytes]) := by
  simp [main, h, hc]

theorem final_summary_returned (code : Int) (out : List Event) (a l : Nat) :
    final_summary (MainResult.returned code (out ++ [Event.summary a l])) = some (a, l) := by
  simp [final_summary]

theorem all_succeed_length (envs : List IterEnv)
    (h : ∀ e ∈ envs, e.malloc_result ≠ none) : (allocated envs).length = envs.length := by
  induction envs with
  | nil => rfl
  | cons e es ih =>
    have he := h e (List.mem_cons_self _ _)
    rw [allocated_cons, List.length_append, ih (fun x hx => h x (List.mem_cons_of_mem _ hx))]
    cases hm : e.malloc_result with
    | none => exact absurd hm he
    | some p => simp; omega

/-- A script longer than `n` splits into its first `n` passes, one more pass,
and the rest. -/
theorem split_at_count (envs : List IterEnv) (n : Nat) (h : n < envs.length) :
    ∃ e rest, envs = envs.take n ++ e :: rest := by
  refine ⟨envs[n], envs.drop (n + 1), ?_⟩
  rw [← List.drop_eq_getElem_cons h, List.take_append_drop]

theorem main_loop_running_of_append (cfg : Config) (xs ys : List IterEnv) (s s2 : State)
    (h : main_loop cfg (xs ++ ys) s = Outcome.running s2) :
    ∃ s1, main_loop cfg xs s = Outcome.running s1 := by
  induction xs generalizing s with
  | nil => exact ⟨s, rfl⟩
  | cons e es ih =>
    rw [List.cons_append] at h
    cases hi : iteration cfg s e with
    | next s3 =>
      rw [main_loop_cons_next cfg s s3 e _ hi] at h
      rw [main_loop_cons_next cfg s s3 e _ hi]
      exact ih s3 h
    | exit s3 why => rw [main_loop_cons_exit cfg s s3 why e _ hi] at h; cases h
    | undefined => rw [main_loop_cons_undefined cfg s e _ hi] at h; cases h

/-- Passes whose `malloc` fails are retried: the loop is still running after
them and only the output has grown. -/
theorem main_loop_skip_failures (cfg : Config) (fails : List IterEnv) (s : State)
    (hk : s.keep_running = true) (hc : cfg.count = 0 ∨ s.allocations < cfg.count)
    (hf : ∀ x ∈ fails, x.signal = false ∧ x.malloc_result = none) :
    ∃ s1, main_loop cfg fails s = Outcome.running s1 ∧ s1.keep_running = true ∧
      s1.allocations = s.allocations ∧ s1.leaked_bytes = s.leaked_bytes ∧
      s1.slab = s.slab ∧ s1.slab_capacity = s.slab_capacity := by
  induction fails generalizing s with
  | nil => exact ⟨s, rfl, hk, rfl, rfl, rfl, rfl⟩
  | cons a es ih =>
    obtain ⟨ha1, ha2⟩ := hf a (List.mem_cons_self _ _)
    rw [main_loop_cons_next cfg s _ a _ (iteration_malloc_failed cfg s a ⟨ha1, hk, hc⟩ ha2)]
    obtain ⟨s1, h1, h2, h3, h4, h5, h6⟩ := ih (emit s _) (by simpa using hk)
      (by simpa using hc) (fun x hx => hf x (List.mem_cons_of_mem _ hx))
    exact ⟨s1, h1, h2, by simpa using h3, by simpa using h4, by simpa using h5,
      by simpa using h6⟩

theorem leak_increment_le (cfg : Config) : leak_increment cfg ≤ cfg.size := by
  unfold leak_increment
  split <;> omega

/-! ## The claims -/

/-- C1. In mode `leak` or `leak-slab`, when the loop is still running after a
script whose `malloc` calls handed out `N` distinct live blocks (so `N` iterations
were completed), `allocations` is `N` and `leaked_bytes` is `N * size`; such runs
exist for every script without signal that stays below the count; and with
mode=leak, count=3, size=1024 the final summary is `allocations=3
estimated_leaked_bytes=3072`. -/
theorem leaked_bytes_after_completed_iterations :
    (∀ (cfg : Config) (t0 : Int) (envs : List IterEnv) (s : State),
      (cfg.mode = "leak" ∨ cfg.mode = "leak-slab") →
      distinct_blocks cfg.size (allocated envs) →
      main_loop cfg envs (init cfg t0) = Outcome.running s →
      s.allocations = (allocated envs).length ∧
        s.leaked_bytes = (allocated envs).length * cfg.size) ∧
    (∀ (cfg : Config) (t0 : Int) (envs : List IterEnv),
      (cfg.mode = "leak" ∨ cfg.mode = "leak-slab") →
      (∀ e ∈ envs, e.signal = false) →
      (cfg.count = 0 ∨ envs.length ≤ cfg.count) →
      (cfg.mode = "leak-slab" → (∀ e ∈ envs, e.realloc_ok = true) ∧ envs.length ≤ 2 ^ 59) →
      ∃ s, main_loop cfg envs (init cfg t0) = Outcome.running s) ∧
    (∀ (cfg : Config) (t0 : Int) (envs : List IterEnv),
      cfg.mode = "leak" → cfg.count = 3 → cfg.size = 1024 →
      (∀ e ∈ envs, e.signal = false ∧ e.malloc_result ≠ none) → 3 < envs.length →
      ∃ out, main cfg t0 envs = MainResult.returned 0 out ∧
        final_summary (main cfg t0 envs) = some (3, 3072)) := by
  refine ⟨?_, ?_, ?_⟩
  · intro cfg t0 envs s hmode hblocks hrun
    have hinc : leak_increment cfg = cfg.size := by
      unfold leak_increment
      rcases hmode with h | h <;> simp [h]
    obtain ⟨h1, h2⟩ := main_loop_running_counters cfg envs (init cfg t0) s
      (by simp [init]) (by simp [init]) hrun
    have hN := distinct_blocks_length _ _ hblocks
    have hB := distinct_blocks_bytes _ _ hblocks
    rw [hinc] at h2
    simp only [init, Nat.zero_add] at h1 h2
    rw [Nat.mod_eq_of_lt hN] at h1
    rw [Nat.mod_eq_of_lt hB] at h2
    exact ⟨h1, h2⟩
  · intro cfg t0 envs hmode hsig hcount hre
    have hkn : known_mode cfg.mode := by
      rcases hmode with h | h
      · exact Or.inl h
      · exact Or.inr (Or.inl h)
    exact main_loop_keeps_running cfg hkn envs (init cfg t0) rfl (Safe_init cfg t0) hsig
      (by simpa [init] using hcount) (by simpa [init] using hre)
  · intro cfg t0 envs hmode hcount hsize hall hlen
    obtain ⟨e, rest, hsplit⟩ := split_at_count envs 3 hlen
    have hpre : ∀ x ∈ envs.take 3, x.signal = false ∧ x.malloc_result ≠ none :=
      fun x hx => hall x (List.mem_of_mem_take hx)
    have he : e ∈ envs := by rw [hsplit]; simp
    have hlen3 : (allocated (envs.take 3)).length = 3 := by
      rw [all_succeed_length _ (fun x hx => (hpre x hx).2), List.length_take]
      omega
    obtain ⟨s1, why, hrun, hres⟩ := main_loop_reaches_count cfg (Or.inl hmode)
      (by omega) (by rw [hcount]; norm_num) (envs.take 3) e rest (init cfg t0) rfl
      (Safe_init cfg t0) (fun x hx => (hpre x hx).1) (hall e he).1
      (by rw [hlen3, hcount]; simp [init])
    rw [← hsplit] at hrun
    have hslab : cfg.mode ≠ "leak-slab" := by rw [hmode]; decide
    rcases hres with ⟨_, ha⟩ | ⟨_, h, _⟩
    swap
    · exact absurd h hslab
    have hcnt := (counted_invariant cfg (by omega) (by rw [hcount]; norm_num) envs
      (init cfg t0) (Counted_init cfg t0)).2 s1 why hrun
    have hnull := (slab_stays_null cfg hslab envs (init cfg t0) rfl).2 s1 why hrun
    have hmain := main_of_exited cfg t0 envs s1 s1 why hrun (cleanup_null s1 hnull)
    have hl : s1.leaked_bytes = 3072 := by
      rw [hcnt.2, ha, hcount]
      simp [leak_increment, hmode, hsize, ULONG_RANGE]
    refine ⟨_, hmain, ?_⟩
    rw [hmain, final_summary_returned, ha, hl, hcount]

/-- Sample runs for C1: two blocks of 1024 bytes with a failed `malloc` in between, in
mode `leak` and in mode `leak-slab` with blocks of 64 bytes, and the scenario of
the claim. -/
theorem leaked_bytes_after_completed_iterations_witness :
    (main_loop sample_leak [pass_ok 4096, pass_nomem, pass_ok 8192] (init sample_leak 0) =
        Outcome.running sample_leak_running ∧
      sample_leak_running.allocations = 2 ∧ sample_leak_running.leaked_bytes = 2 * 1024) ∧
    (∃ s, main_loop sample_slab [pass_ok 4096, pass_ok 8192] (init sample_slab 0) =
        Outcome.running s ∧ s.allocations = 2 ∧ s.leaked_bytes = 2 * 64) ∧
    final_summary (main sample_leak 0 [pass_ok 4096, pass_ok 8192, pass_ok 12288,
      pass_ok 16384]) = some (3, 3072) := by
  refine ⟨⟨by decide, ?_⟩, ?_, ?_⟩
  · exact leaked_bytes_after_completed_iterations.1 sample_leak 0
      [pass_ok 4096, pass_nomem, pass_ok 8192] sample_leak_running (Or.inl rfl)
      (by decide) (by decide)
  · obtain ⟨s, hs⟩ := leaked_bytes_after_completed_iterations.2.1 sample_slab 0
      [pass_ok 4096, pass_ok 8192] (Or.inr rfl) (by decide) (Or.inl rfl)
      (fun _ => ⟨by decide, by decide⟩)
    exact ⟨s, hs, leaked_bytes_after_completed_iterations.1 sample_slab 0 _ s (Or.inr rfl)
      (by decide) hs⟩
  · obtain ⟨out, _, h⟩ := leaked_bytes_after_completed_iterations.2.2 sample_leak 0
      [pass_ok 4096, pass_ok 8192, pass_ok 12288, pass_ok 16384] rfl rfl rfl
      (by decide) (by decide)
    exact h

/-- C2. In mode `transient` or `steady`, whatever the script, `leaked_bytes` is 0
in every state the loop reaches and the run is never undefined; with
mode=transient, count=5, interval=0 the final summary is `allocations=5
estimated_leaked_bytes=0`. -/
theorem freeing_modes_never_leak :
    (∀ (cfg : Config) (t0 : Int) (envs : List IterEnv),
      (cfg.mode = "transient" ∨ cfg.mode = "steady") →
      (∀ s, main_loop cfg envs (init cfg t0) = Outcome.running s →
        s.leaked_bytes = 0 ∧ s.allocations = (allocated envs).length % ULONG_RANGE) ∧
      (∀ s why, main_loop cfg envs (init cfg t0) = Outcome.exited s why →
        s.leaked_bytes = 0) ∧
      main_loop cfg envs (init cfg t0) ≠ Outcome.undefined) ∧
    (∀ (cfg : Config) (t0 : Int) (envs : List IterEnv),
      cfg.mode = "transient" → cfg.count = 5 → cfg.interval_ms = 0 →
      (∀ e ∈ envs, e.signal = false ∧ e.malloc_result ≠ none) → 5 < envs.length →
      ∃ out, main cfg t0 envs = MainResult.returned 0 out ∧
        final_summary (main cfg t0 envs) = some (5, 0)) := by
  have hinc : ∀ cfg : Config, (cfg.mode = "transient" ∨ cfg.mode = "steady") →
      leak_increment cfg = 0 := by
    intro cfg h
    simp [leak_increment, h]
  have hslab : ∀ cfg : Config, (cfg.mode = "transient" ∨ cfg.mode = "steady") →
      cfg.mode ≠ "leak-slab" := by
    intro cfg h
    rcases h with h | h <;> rw [h] <;> decide
  refine ⟨?_, ?_⟩
  · intro cfg t0 envs hmode
    have hzero := main_loop_invariant cfg (fun s => s.leaked_bytes = 0)
      (by
        intro s e s1 hP hi
        obtain ⟨_, _, hc⟩ := iteration_next_counters cfg s e s1 hi
        rcases hc with ⟨_, _, h2, _, _⟩ | ⟨p, _, _, _, h2, _⟩
        · rw [h2]; exact hP
        · rw [h2, hinc cfg hmode, hP]; rfl)
      (by
        intro s e s1 why hP hi
        rw [(iteration_exit_counters cfg s e s1 why hi).2.1]; exact hP)
      envs (init cfg t0) rfl
    refine ⟨fun s hrun => ⟨hzero.1 s hrun, ?_⟩, hzero.2,
      main_loop_defined cfg (hslab cfg hmode) envs _⟩
    have := (main_loop_running_counters cfg envs (init cfg t0) s
      (by simp [init]) (by simp [init]) hrun).1
    simpa [init] using this
  · intro cfg t0 envs hmode hcount _ hall hlen
    obtain ⟨e, rest, hsplit⟩ := split_at_count envs 5 hlen
    have hpre : ∀ x ∈ envs.take 5, x.signal = false ∧ x.malloc_result ≠ none :=
      fun x hx => hall x (List.mem_of_mem_take hx)
    have he : e ∈ envs := by rw [hsplit]; simp
    have hlen5 : (allocated (envs.take 5)).length = 5 := by
      rw [all_succeed_length _ (fun x hx => (hpre x hx).2), List.length_take]
      omega
    obtain ⟨s1, why, hrun, hres⟩ := main_loop_reaches_count cfg
      (Or.inr (Or.inr (Or.inl hmode)))
      (by omega) (by rw [hcount]; norm_num) (envs.take 5) e rest (init cfg t0) rfl
      (Safe_init cfg t0) (fun x hx => (hpre x hx).1) (hall e he).1
      (by rw [hlen5, hcount]; simp [init])
    rw [← hsplit] at hrun
    have hns : cfg.mode ≠ "leak-slab" := hslab cfg (Or.inl hmode)
    rcases hres with ⟨_, ha⟩ | ⟨_, h, _⟩
    swap
    · exact absurd h hns
    have hcnt := (counted_invariant cfg (by omega) (by rw [hcount]; norm_num) envs
      (init cfg t0) (Counted_init cfg t0)).2 s1 why hrun
    have hnull := (slab_stays_null cfg hns envs (init cfg t0) rfl).2 s1 why hrun
    have hmain := main_of_exited cfg t0 envs s1 s1 why hrun (cleanup_null s1 hnull)
    have hl : s1.leaked_bytes = 0 := by
      rw [hcnt.2, hinc cfg (Or.inl hmode)]
      simp
    refine ⟨_, hmain, ?_⟩
    rw [hmain, final_summary_returned, ha, hl, hcount]

/-- Sample runs for C2: one block in mode `transient`, and the scenario of the
claim. -/
theorem freeing_modes_never_leak_witness :
    (main_loop sample_transient [pass_ok 4096] (init sample_transient 0) =
        Outcome.running sample_transient_running ∧
      sample_transient_running.leaked_bytes = 0) ∧
    final_summary (main sample_transient 0 [pass_ok 4096, pass_ok 4096, pass_ok 4096,
      pass_ok 4096, pass_ok 4096, pass_ok 4096]) = some (5, 0) := by
  refine ⟨⟨by decide, ?_⟩, ?_⟩
  · exact ((freeing_modes_never_leak.1 sample_transient 0 [pass_ok 4096]
      (Or.inl rfl)).1 sample_transient_running (by decide)).1
  · obtain ⟨out, _, h⟩ := freeing_modes_never_leak.2 sample_transient 0
      [pass_ok 4096, pass_ok 4096, pass_ok 4096, pass_ok 4096, pass_ok 4096, pass_ok 4096]
      rfl rfl rfl (by decide) (by decide)
    exact h

/-- C3. With a count `N > 0`: in no state the loop reaches does `allocations`
exceed `N`; and in each of the four known modes, when no signal arrives and every
`malloc` succeeds, a script of more than `N` passes leaves the loop, through the
count check with `allocations = N`, unless `leak-slab` failed to grow the slab. -/
theorem count_stops_the_loop :
    (∀ (cfg : Config) (t0 : Int) (envs : List IterEnv),
      0 < cfg.count → cfg.count < ULONG_RANGE →
      (∀ s, main_loop cfg envs (init cfg t0) = Outcome.running s →
        s.allocations ≤ cfg.count) ∧
      (∀ s why, main_loop cfg envs (init cfg t0) = Outcome.exited s why →
        s.allocations ≤ cfg.count)) ∧
    (∀ (cfg : Config) (t0 : Int) (envs : List IterEnv),
      known_mode cfg.mode → 0 < cfg.count → cfg.count < ULONG_RANGE →
      (∀ e ∈ envs, e.signal = false ∧ e.malloc_result ≠ none) →
      cfg.count < envs.length →
      ∃ s why, main_loop cfg envs (init cfg t0) = Outcome.exited s why ∧
        ((why = LoopExit.count_reached ∧ s.allocations = cfg.count) ∨
         (why = LoopExit.slab_realloc_failed ∧ cfg.mode = "leak-slab" ∧
           ((∃ e ∈ envs, e.realloc_ok = false) ∨ 2 ^ 59 < cfg.count)))) := by
  refine ⟨?_, ?_⟩
  · intro cfg t0 envs hc0 hcM
    have h := counted_invariant cfg hc0 hcM envs (init cfg t0) (Counted_init cfg t0)
    exact ⟨fun s hs => (h.1 s hs).1, fun s why hs => (h.2 s why hs).1⟩
  · intro cfg t0 envs hkn hc0 hcM hall hlen
    obtain ⟨e, rest, hsplit⟩ := split_at_count envs cfg.count hlen
    have hpre : ∀ x ∈ envs.take cfg.count, x.signal = false ∧ x.malloc_result ≠ none :=
      fun x hx => hall x (List.mem_of_mem_take hx)
    have he : e ∈ envs := by rw [hsplit]; simp
    have hlenN : (allocated (envs.take cfg.count)).length = cfg.count := by
      rw [all_succeed_length _ (fun x hx => (hpre x hx).2), List.length_take]
      omega
    obtain ⟨s1, why, hrun, hres⟩ := main_loop_reaches_count cfg hkn hc0 hcM
      (envs.take cfg.count) e rest (init cfg t0) rfl
      (Safe_init cfg t0) (fun x hx => (hpre x hx).1) (hall e he).1
      (by rw [hlenN]; simp [init])
    rw [← hsplit] at hrun
    refine ⟨s1, why, hrun, ?_⟩
    rcases hres with h | ⟨h1, h2, _, h4⟩
    · exact Or.inl h
    · refine Or.inr ⟨h1, h2, ?_⟩
      rcases h4 with ⟨x, hx, hxr⟩ | h4
      · exact Or.inl ⟨x, List.mem_of_mem_take hx, hxr⟩
      · exact Or.inr h4

/-- Sample runs for C3: with count 3, two blocks leave `allocations` at most 3,
and four successful passes end the loop through the count check at exactly 3. -/
theorem count_stops_the_loop_witness :
    sample_leak_running.allocations ≤ 3 ∧
    ∃ s, main_loop sample_leak [pass_ok 4096, pass_ok 8192, pass_ok 12288, pass_ok 16384]
        (init sample_leak 0) = Outcome.exited s LoopExit.count_reached ∧
      s.allocations = 3 := by
  refine ⟨?_, ?_⟩
  · exact (count_stops_the_loop.1 sample_leak 0 [pass_ok 4096, pass_nomem, pass_ok 8192]
      (by decide) (by decide)).1 sample_leak_running (by decide)
  · obtain ⟨s, why, hrun, hres⟩ := count_stops_the_loop.2 sample_leak 0
      [pass_ok 4096, pass_ok 8192, pass_ok 12288, pass_ok 16384]
      (Or.inl rfl) (by decide) (by decide) (by decide) (by decide)
    rcases hres with ⟨hw, ha⟩ | ⟨_, hm, _⟩
    · subst hw
      exact ⟨s, hrun, ha⟩
    · exact absurd hm (by decide)

/-- C4. In mode `leak-slab` the run is never undefined and, at every evaluation of
the loop condition and when the loop is left, `slab[0 .. allocations-1]` holds
exactly the blocks of the completed iterations in allocation order; continuing
the run only appends to them. -/
theorem slab_holds_allocated_blocks (cfg : Config) (t0 : Int) (envs : List IterEnv)
    (hmode : cfg.mode = "leak-slab") :
    main_loop cfg envs (init cfg t0) ≠ Outcome.undefined ∧
    (∀ s, main_loop cfg envs (init cfg t0) = Outcome.running s →
      retained s = some (allocated envs) ∧ s.allocations = (allocated envs).length) ∧
    (∀ s why, main_loop cfg envs (init cfg t0) = Outcome.exited s why →
      ∃ pre e rest, envs = pre ++ e :: rest ∧
        retained s = some (allocated pre) ∧ s.allocations = (allocated pre).length) ∧
    (∀ more s2, main_loop cfg (envs ++ more) (init cfg t0) = Outcome.running s2 →
      ∃ s1, main_loop cfg envs (init cfg t0) = Outcome.running s1 ∧
        retained s1 = some (allocated envs) ∧
        retained s2 = some (allocated envs ++ allocated more)) := by
  obtain ⟨h1, h2, h3⟩ := main_loop_slab_inv cfg hmode envs (init cfg t0) []
    (SlabInv_init cfg t0)
  refine ⟨h3, ?_, ?_, ?_⟩
  · intro s hrun
    have hinv := h1 s hrun
    rw [List.nil_append] at hinv
    exact ⟨retained_of_inv hinv, hinv.1⟩
  · intro s why hrun
    obtain ⟨pre, e, rest, hsplit, hinv⟩ := h2 s why hrun
    rw [List.nil_append] at hinv
    exact ⟨pre, e, rest, hsplit, retained_of_inv hinv, hinv.1⟩
  · intro more s2 hrun2
    obtain ⟨s1, hrun1⟩ := main_loop_running_of_append cfg envs more _ s2 hrun2
    have hinv1 := h1 s1 hrun1
    have hinv2 := (main_loop_slab_inv cfg hmode (envs ++ more) (init cfg t0) []
      (SlabInv_init cfg t0)).1 s2 hrun2
    rw [List.nil_append] at hinv1 hinv2
    rw [allocated_append] at hinv2
    exact ⟨s1, hrun1, retained_of_inv hinv1, retained_of_inv hinv2⟩

/-- Sample run for C4: after two blocks and one failed `malloc` the slab holds
the two blocks in order, and a further block is appended to them. -/
theorem slab_holds_allocated_blocks_witness :
    retained sample_slab_running = some [4096, 8192] ∧
    sample_slab_running.allocations = 2 ∧
    main_loop sample_slab [pass_ok 4096, pass_nomem, pass_ok 8192] (init sample_slab 0) ≠
      Outcome.undefined := by
  have h := slab_holds_allocated_blocks sample_slab 0
    [pass_ok 4096, pass_nomem, pass_ok 8192] rfl
  have hrun : main_loop sample_slab [pass_ok 4096, pass_nomem, pass_ok 8192]
      (init sample_slab 0) = Outcome.running sample_slab_running := by
    set_option maxRecDepth 100000 in decide
  exact ⟨(h.2.1 sample_slab_running hrun).1, (h.2.1 sample_slab_running hrun).2, h.1⟩

/-- C5. In mode `leak-slab`, however the loop was left, the slab retains exactly
the blocks of the completed passes, and the cleanup phase passes exactly these
handles to `free`, one call per slot in slot order, followed by the slab block
itself; when `malloc` never returned the same address twice, no handle is freed
twice. -/
theorem cleanup_frees_each_retained_block_once (cfg : Config) (t0 : Int)
    (envs : List IterEnv) (s : State) (why : LoopExit) (hmode : cfg.mode = "leak-slab")
    (hrun : main_loop cfg envs (init cfg t0) = Outcome.exited s why) :
    ∃ pre e rest s1, envs = pre ++ e :: rest ∧
      retained s = some (allocated pre) ∧ cleanup s = some s1 ∧
      s1.out = s.out ++ (allocated pre).map Event.free ++
        (if s.slab = none then [] else [Event.free_slab]) ∧
      s1.allocations = s.allocations ∧ s1.leaked_bytes = s.leaked_bytes ∧
      ((allocated envs).Nodup → (allocated pre).Nodup) := by
  obtain ⟨pre, e, rest, hsplit, hinv⟩ :=
    (main_loop_slab_inv cfg hmode envs (init cfg t0) [] (SlabInv_init cfg t0)).2.1 s why hrun
  rw [List.nil_append] at hinv
  refine ⟨pre, e, rest, _, hsplit, retained_of_inv hinv, cleanup_of_inv hinv, ?_, rfl, rfl, ?_⟩
  · simp [List.append_assoc]
  · intro hnd
    rw [hsplit, allocated_append] at hnd
    exact hnd.of_append_left

/-- Sample run for C5: a signal after two blocks; cleanup frees the two blocks,
each once, and then the slab. -/
theorem cleanup_frees_each_retained_block_once_witness :
    ∃ s1, retained (on_sigint sample_slab_running) = some [4096, 8192] ∧
      cleanup (on_sigint sample_slab_running) = some s1 ∧
      s1.out = sample_slab_running.out ++
        [Event.free 4096, Event.free 8192, Event.free_slab] ∧
      [4096, 8192].Nodup := by
  have hrun : main_loop sample_slab [pass_ok 4096, pass_nomem, pass_ok 8192, pass_signal]
      (init sample_slab 0) =
      Outcome.exited (on_sigint sample_slab_running) LoopExit.shutdown := by
    set_option maxRecDepth 100000 in decide
  obtain ⟨pre, e, rest, s1, _, h1, h2, h3, _, _, h6⟩ :=
    cleanup_frees_each_retained_block_once
      sample_slab 0 [pass_ok 4096, pass_nomem, pass_ok 8192, pass_signal]
      (on_sigint sample_slab_running) LoopExit.shutdown rfl hrun
  have hr : retained (on_sigint sample_slab_running) = some [4096, 8192] := by
    set_option maxRecDepth 100000 in decide
  rw [hr] at h1
  have hpre : allocated pre = [4096, 8192] := (Option.some.inj h1).symm
  have hnd := h6 (by decide)
  rw [hpre] at h3 hnd
  exact ⟨s1, hr, h2, h3, hnd⟩

/-- C6. With a mode string that is none of the four known ones, `main` can only
return 0 with the summary `allocations=0 estimated_leaked_bytes=0`; and the loop
is left in the first pass whose `malloc` succeeds, after freeing the block just
allocated and without counting it. -/
theorem unknown_mode_stops :
    (∀ (cfg : Config) (t0 : Int) (envs : List IterEnv), ¬ known_mode cfg.mode →
      main cfg t0 envs = MainResult.running ∨
      ∃ out, main cfg t0 envs = MainResult.returned 0 out ∧
        final_summary (main cfg t0 envs) = some (0, 0)) ∧
    (∀ (cfg : Config) (t0 : Int) (fails : List IterEnv) (e : IterEnv)
      (rest : List IterEnv) (p : Ptr), ¬ known_mode cfg.mode →
      (∀ x ∈ fails, x.signal = false ∧ x.malloc_result = none) →
      e.signal = false → e.malloc_result = some p →
      ∃ s o, main_loop cfg (fails ++ e :: rest) (init cfg t0) =
          Outcome.exited s LoopExit.unknown_mode ∧
        s.allocations = 0 ∧ s.leaked_bytes = 0 ∧
        s.out = o ++ [Event.memset p cfg.size, Event.log_unknown_mode cfg.mode,
          Event.free p] ∧
        main cfg t0 (fails ++ e :: rest) =
          MainResult.returned 0 (s.out ++ [Event.summary 0 0])) := by
  have hslab : ∀ cfg : Config, ¬ known_mode cfg.mode → cfg.mode ≠ "leak-slab" :=
    fun cfg hkn h => hkn (Or.inr (Or.inl h))
  refine ⟨?_, ?_⟩
  · intro cfg t0 envs hkn
    have hzero := main_loop_invariant cfg
      (fun s => s.allocations = 0 ∧ s.leaked_bytes = 0)
      (by
        intro s e s1 hP hi
        obtain ⟨_, _, hc⟩ := iteration_next_counters cfg s e s1 hi
        rcases hc with ⟨_, h1, h2, _, _⟩ | ⟨p, _, hk, _⟩
        · rw [h1, h2]; exact hP
        · exact absurd hk hkn)
      (by
        intro s e s1 why hP hi
        obtain ⟨h1, h2, _, _⟩ := iteration_exit_counters cfg s e s1 why hi
        rw [h1, h2]; exact hP)
      envs (init cfg t0) ⟨rfl, rfl⟩
    cases hrun : main_loop cfg envs (init cfg t0) with
    | running s => left; simp [main, hrun]
    | undefined => exact absurd hrun (main_loop_defined cfg (hslab cfg hkn) envs _)
    | exited s why =>
      right
      obtain ⟨ha, hl⟩ := hzero.2 s why hrun
      have hnull := (slab_stays_null cfg (hslab cfg hkn) envs (init cfg t0) rfl).2 s why hrun
      have hmain := main_of_exited cfg t0 envs s s why hrun (cleanup_null s hnull)
      refine ⟨_, hmain, ?_⟩
      rw [hmain, final_summary_returned, ha, hl]
  · intro cfg t0 fails e rest p hkn hf hsig hm
    obtain ⟨s1, hrun1, hk1, ha1, hl1, hs1, _⟩ := main_loop_skip_failures cfg fails
      (init cfg t0) rfl (by simp only [init]; omega) hf
    have hb : enters_body cfg s1 e := ⟨hsig, hk1, by rw [ha1]; simp only [init]; omega⟩
    have hrun : main_loop cfg (fails ++ e :: rest) (init cfg t0) =
        Outcome.exited (emit s1 [Event.memset p cfg.size, Event.log_unknown_mode cfg.mode,
          Event.free p]) LoopExit.unknown_mode := by
      rw [main_loop_append cfg fails _ _ s1 hrun1]
      exact main_loop_cons_exit cfg s1 _ _ e rest (iteration_unknown cfg s1 e p hb hm hkn)
    have ha : s1.allocations = 0 := by rw [ha1]; rfl
    have hl : s1.leaked_bytes = 0 := by rw [hl1]; rfl
    have hnull : s1.slab = none := by rw [hs1]; rfl
    refine ⟨_, s1.out, hrun, ha, hl, rfl, ?_⟩
    have hmain := main_of_exited cfg t0 _ _ _ _ hrun (cleanup_null _ (by simpa using hnull))
    rw [hmain]
    simp [ha, hl]

/-- Sample run for C6: with mode `bogus` and count 10, a failed `malloc` followed
by a successful one ends the run with the block freed and the summary 0, 0. -/
theorem unknown_mode_stops_witness :
    (main sample_bogus 0 [pass_nomem, pass_ok 4096, pass_ok 8192] = MainResult.running ∨
      ∃ out, main sample_bogus 0 [pass_nomem, pass_ok 4096, pass_ok 8192] =
          MainResult.returned 0 out ∧
        final_summary (main sample_bogus 0 [pass_nomem, pass_ok 4096, pass_ok 8192]) =
          some (0, 0)) ∧
    ∃ s o, main_loop sample_bogus ([pass_nomem] ++ pass_ok 4096 :: [pass_ok 8192])
        (init sample_bogus 0) = Outcome.exited s LoopExit.unknown_mode ∧
      s.allocations = 0 ∧ s.leaked_bytes = 0 ∧
      s.out = o ++ [Event.memset 4096 sample_bogus.size,
        Event.log_unknown_mode sample_bogus.mode, Event.free 4096] ∧
      main sample_bogus 0 ([pass_nomem] ++ pass_ok 4096 :: [pass_ok 8192]) =
        MainResult.returned 0 (s.out ++ [Event.summary 0 0]) :=
  ⟨unknown_mode_stops.1 sample_bogus 0 [pass_nomem, pass_ok 4096, pass_ok 8192] (by decide),
    unknown_mode_stops.2 sample_bogus 0 [pass_nomem] (pass_ok 4096) [pass_ok 8192] 4096
      (by decide) (by decide) rfl rfl⟩

/-- C7. A poll of the loop condition after the handler ran leaves the loop at
once with every variable unchanged; once `keep_running` is clear no further pass
is started; and a signal that arrives during a pass is seen at the next poll, by
which time `allocations` has grown by at most 1 and `leaked_bytes` by at most
`size`. -/
theorem shutdown_is_prompt :
    (∀ (cfg : Config) (s : State) (e : IterEnv) (es : List IterEnv), e.signal = true →
      main_loop cfg (e :: es) s = Outcome.exited (on_sigint s) LoopExit.shutdown) ∧
    (∀ (cfg : Config) (s : State) (e : IterEnv) (es : List IterEnv),
      s.keep_running = false →
      main_loop cfg (e :: es) s = Outcome.exited s LoopExit.shutdown) ∧
    (∀ (cfg : Config) (s : State) (e : IterEnv) (s1 : State),
      iteration cfg s e = Step.next s1 →
      s1.allocations ≤ s.allocations + 1 ∧ s1.leaked_bytes ≤ s.leaked_bytes + cfg.size ∧
      ∀ (e1 : IterEnv) (es : List IterEnv), e1.signal = true →
        main_loop cfg (e :: e1 :: es) s = Outcome.exited (on_sigint s1) LoopExit.shutdown) ∧
    (∀ (cfg : Config) (s : State) (e : IterEnv) (s1 : State) (why : LoopExit),
      iteration cfg s e = Step.exit s1 why →
      s1.allocations = s.allocations ∧ s1.leaked_bytes = s.leaked_bytes) := by
  refine ⟨?_, ?_, ?_, ?_⟩
  · intro cfg s e es hsig
    exact main_loop_cons_exit cfg s _ _ e es (iteration_signal cfg s e hsig)
  · intro cfg s e es hk
    cases hsig : e.signal with
    | true =>
      rw [main_loop_cons_exit cfg s _ _ e es (iteration_signal cfg s e hsig)]
      cases s
      simp_all [on_sigint]
    | false => exact main_loop_cons_exit cfg s _ _ e es (iteration_stopped cfg s e hsig hk)
  · intro cfg s e s1 hi
    obtain ⟨_, _, hc⟩ := iteration_next_counters cfg s e s1 hi
    have hinc := leak_increment_le cfg
    refine ⟨?_, ?_, ?_⟩
    · rcases hc with ⟨_, h1, _⟩ | ⟨p, _, _, h1, _⟩
      · omega
      · rw [h1]; exact Nat.mod_le _ _
    · rcases hc with ⟨_, _, h2, _⟩ | ⟨p, _, _, _, h2, _⟩
      · omega
      · rw [h2]
        exact Nat.le_trans (Nat.mod_le _ _) (by omega)
    · intro e1 es hsig
      rw [main_loop_cons_next cfg s s1 e _ hi]
      exact main_loop_cons_exit cfg s1 _ _ e1 es (iteration_signal cfg s1 e1 hsig)
  · intro cfg s e s1 why hi
    obtain ⟨h1, h2, _, _⟩ := iteration_exit_counters cfg s e s1 why hi
    exact ⟨h1, h2⟩

/-- Sample runs for C7: a signal before the first poll, a poll with the flag
already clear, a signal during the first pass, and a pass that leaves the loop. -/
theorem shutdown_is_prompt_witness :
    main_loop sample_leak [pass_signal, pass_ok 4096] (init sample_leak 0) =
      Outcome.exited (on_sigint (init sample_leak 0)) LoopExit.shutdown ∧
    main_loop sample_leak [pass_ok 4096] (on_sigint sample_leak_running) =
      Outcome.exited (on_sigint sample_leak_running) LoopExit.shutdown ∧
    (finish sample_leak (emit (init sample_leak 0) [Event.memset 4096 1024])
        (pass_ok 4096)).allocations ≤ 0 + 1 ∧
    main_loop sample_leak [pass_ok 4096, pass_signal] (init sample_leak 0) =
      Outcome.exited (on_sigint (finish sample_leak
        (emit (init sample_leak 0) [Event.memset 4096 1024]) (pass_ok 4096)))
        LoopExit.shutdown ∧
    (on_sigint sample_leak_running).allocations = sample_leak_running.allocations := by
  have hnext : iteration sample_leak (init sample_leak 0) (pass_ok 4096) =
      Step.next (finish sample_leak (emit (init sample_leak 0) [Event.memset 4096 1024])
        (pass_ok 4096)) := by decide
  have hexit : iteration sample_leak sample_leak_running pass_signal =
      Step.exit (on_sigint sample_leak_running) LoopExit.shutdown := by decide
  exact ⟨shutdown_is_prompt.1 sample_leak _ pass_signal [pass_ok 4096] rfl,
    shutdown_is_prompt.2.1 sample_leak _ (pass_ok 4096) [] rfl,
    (shutdown_is_prompt.2.2.1 sample_leak _ _ _ hnext).1,
    (shutdown_is_prompt.2.2.1 sample_leak _ _ _ hnext).2.2 pass_signal [] rfl,
    (shutdown_is_prompt.2.2.2 sample_leak _ _ _ _ hexit).1⟩

/-- C8. In mode `leak-slab`, when the slab must grow and `realloc` returns NULL,
the loop is left with the block of that pass freed and not counted, with
`allocations`, `leaked_bytes`, the slab and its capacity as they were before the
pass; cleanup then frees every retained block and the slab, and `main` returns 0. -/
theorem slab_growth_failure_is_graceful (cfg : Config) (t0 : Int) (envs : List IterEnv)
    (e : IterEnv) (rest : List IterEnv) (s : State) (p : Ptr)
    (hmode : cfg.mode = "leak-slab")
    (hrun : main_loop cfg envs (init cfg t0) = Outcome.running s)
    (hb : enters_body cfg s e) (hm : e.malloc_result = some p)
    (hg : needs_growth s)
    (hr : realloc (grown_bytes s.slab_capacity) e.realloc_ok = false) :
    main_loop cfg (envs ++ e :: rest) (init cfg t0) =
      Outcome.exited
        (emit s [Event.memset p cfg.size, Event.log_realloc_failed, Event.free p])
        LoopExit.slab_realloc_failed ∧
    retained s = some (allocated envs) ∧
    main cfg t0 (envs ++ e :: rest) =
      MainResult.returned 0
        (s.out ++ [Event.memset p cfg.size, Event.log_realloc_failed, Event.free p] ++
          (allocated envs).map Event.free ++
          (if s.slab = none then [] else [Event.free_slab]) ++
          [Event.summary s.allocations s.leaked_bytes]) := by
  have hinv := (main_loop_slab_inv cfg hmode envs (init cfg t0) []
    (SlabInv_init cfg t0)).1 s hrun
  rw [List.nil_append] at hinv
  have hi : iteration cfg s e = Step.exit
      (emit s [Event.memset p cfg.size, Event.log_realloc_failed, Event.free p])
      LoopExit.slab_realloc_failed := by
    rw [iteration_leak_slab cfg s e p hb hm hmode,
      slab_store_failed (emit s [Event.memset p cfg.size]) e p hg hr]
    simp [emit]
  have hexit : main_loop cfg (envs ++ e :: rest) (init cfg t0) = Outcome.exited
      (emit s [Event.memset p cfg.size, Event.log_realloc_failed, Event.free p])
      LoopExit.slab_realloc_failed := by
    rw [main_loop_append cfg envs _ _ s hrun]
    exact main_loop_cons_exit cfg s _ _ e rest hi
  refine ⟨hexit, retained_of_inv hinv, ?_⟩
  have hinv2 : SlabInv
      (emit s [Event.memset p cfg.size, Event.log_realloc_failed, Event.free p])
      (allocated envs) := SlabInv_same_slab hinv rfl rfl rfl
  rw [main_of_exited cfg t0 _ _ _ _ hexit (cleanup_of_inv hinv2)]
  simp [List.append_assoc]

/-- Sample run for C8: the first growth of the slab is refused; the block is
freed, nothing is counted, and `main` returns 0 with the summary 0, 0. -/
theorem slab_growth_failure_is_graceful_witness :
    main sample_slab 0 ([] ++ pass_nogrow 4096 :: [pass_ok 8192]) =
      MainResult.returned 0
        [Event.log_start "leak-slab" 64 1500 0 10, Event.memset 4096 64,
          Event.log_realloc_failed, Event.free 4096, Event.summary 0 0] :=
  (slab_growth_failure_is_graceful sample_slab 0 [] (pass_nogrow 4096) [pass_ok 8192]
    (init sample_slab 0) 4096 rfl rfl (by decide) rfl (by decide) (by decide)).2.2

/-- C9. In every mode a pass whose `malloc` returns NULL logs the failure, sleeps
one second and goes back to the loop condition with `allocations`,
`leaked_bytes`, the slab and its capacity unchanged; and with a count `N > 0` in
a known mode, a script without signal in which `N` calls of `malloc` succeed,
however many fail in between, leaves the loop through the count check with
`allocations = N`, unless `leak-slab` failed to grow the slab. -/
theorem malloc_failure_is_retried :
    (∀ (cfg : Config) (s : State) (e : IterEnv), enters_body cfg s e →
      e.malloc_result = none →
      iteration cfg s e =
        Step.next (emit s [Event.log_malloc_failed ((s.allocations + 1) % ULONG_RANGE),
          Event.sleep 1])) ∧
    (∀ (cfg : Config) (t0 : Int) (pre : List IterEnv) (e : IterEnv) (rest : List IterEnv),
      known_mode cfg.mode → 0 < cfg.count → cfg.count < ULONG_RANGE →
      (∀ x ∈ pre, x.signal = false) → e.signal = false →
      (allocated pre).length = cfg.count →
      ∃ s why, main_loop cfg (pre ++ e :: rest) (init cfg t0) = Outcome.exited s why ∧
        ((why = LoopExit.count_reached ∧ s.allocations = cfg.count) ∨
         (why = LoopExit.slab_realloc_failed ∧ cfg.mode = "leak-slab" ∧
           ((∃ x ∈ pre, x.realloc_ok = false) ∨ 2 ^ 59 < cfg.count)))) := by
  refine ⟨?_, ?_⟩
  · intro cfg s e hb hm
    exact iteration_malloc_failed cfg s e hb hm
  · intro cfg t0 pre e rest hkn hc0 hcM hsig hsige hlen
    obtain ⟨s1, why, hrun, hres⟩ := main_loop_reaches_count cfg hkn hc0 hcM pre e rest
      (init cfg t0) rfl (Safe_init cfg t0) hsig hsige (by rw [hlen]; simp [init])
    refine ⟨s1, why, hrun, ?_⟩
    rcases hres with h | ⟨h1, h2, _, h4⟩
    · exact Or.inl h
    · exact Or.inr ⟨h1, h2, h4⟩

/-- Sample runs for C9: a failed `malloc` in the first pass keeps the loop
running with the counters untouched, and with count 3 three successes among
failures end the loop at exactly 3. -/
theorem malloc_failure_is_retried_witness :
    iteration sample_leak (init sample_leak 0) pass_nomem =
      Step.next (emit (init sample_leak 0) [Event.log_malloc_failed 1, Event.sleep 1]) ∧
    ∃ s, main_loop sample_leak
        ([pass_nomem, pass_ok 4096, pass_nomem, pass_nomem, pass_ok 8192, pass_ok 12288] ++
          pass_nomem :: [])
        (init sample_leak 0) = Outcome.exited s LoopExit.count_reached ∧
      s.allocations = 3 := by
  refine ⟨malloc_failure_is_retried.1 sample_leak (init sample_leak 0) pass_nomem
    (by decide) rfl, ?_⟩
  obtain ⟨s, why, hrun, hres⟩ := malloc_failure_is_retried.2 sample_leak 0
    [pass_nomem, pass_ok 4096, pass_nomem, pass_nomem, pass_ok 8192, pass_ok 12288]
    pass_nomem [] (Or.inl rfl) (by decide) (by decide) (by decide) rfl (by decide)
  rcases hres with ⟨hw, ha⟩ | ⟨_, hm, _⟩
  · subst hw
    exact ⟨s, hrun, ha⟩
  · exact absurd hm (by decide)

/-- C10. For every `interval_ms` the sleep step asks for `sleep(interval_ms /
1000)` and, when the remainder is not zero, `usleep((interval_ms % 1000) * 1000)`
if `interval_ms >= 1000`, and for `usleep(interval_ms * 1000)` otherwise; no
product wraps in 32 bits, the pauses add up to exactly `interval_ms`
milliseconds, every `usleep` argument is below 1,000,000, and every completed
iteration ends with this step. -/
theorem sleep_interval_requests_interval (interval_ms : Nat) :
    sleep_interval interval_ms =
      (if interval_ms ≥ 1000 then
        Event.sleep (interval_ms / 1000) ::
          (if interval_ms % 1000 ≠ 0 then [Event.usleep ((interval_ms % 1000) * 1000)]
           else [])
       else [Event.usleep (interval_ms * 1000)]) ∧
    requested_usec (sleep_interval interval_ms) = interval_ms * 1000 ∧
    (∀ u, Event.usleep u ∈ sleep_interval interval_ms → u < 1000000) ∧
    (∀ (cfg : Config) (s : State) (e : IterEnv), cfg.interval_ms = interval_ms →
      ∃ o, (finish cfg s e).out = o ++ sleep_interval interval_ms) := by
  have h1 : (interval_ms % 1000) * 1000 % UINT_RANGE = (interval_ms % 1000) * 1000 := by
    simp only [UINT_RANGE]; omega
  refine ⟨?_, ?_, ?_, ?_⟩
  · unfold sleep_interval
    rw [h1]
    split
    · rfl
    · rename_i hlt
      have h2 : interval_ms * 1000 % UINT_RANGE = interval_ms * 1000 := by
        simp only [UINT_RANGE]; omega
      rw [h2]
  · unfold sleep_interval
    rw [h1]
    split
    · split
      · simp only [requested_usec]; omega
      · simp only [requested_usec]; omega
    · have h2 : interval_ms * 1000 % UINT_RANGE = interval_ms * 1000 := by
        simp only [UINT_RANGE]; omega
      rw [h2]
      simp only [requested_usec]; omega
  · intro u hu
    unfold sleep_interval at hu
    rw [h1] at hu
    split at hu
    · split at hu
      · simp at hu; omega
      · simp at hu
    · have h2 : interval_ms * 1000 % UINT_RANGE = interval_ms * 1000 := by
        simp only [UINT_RANGE]; omega
      rw [h2] at hu
      simp at hu; omega
  · intro cfg s e hcfg
    exact ⟨_, by rw [← hcfg]; rfl⟩

/-- Sample run for C10: an interval of 1500 ms is one `sleep(1)` and one
`usleep(500000)`. -/
theorem sleep_interval_requests_interval_witness :
    sleep_interval 1500 = [Event.sleep 1, Event.usleep 500000] ∧
    requested_usec (sleep_interval 1500) = 1500000 ∧ 500000 < 1000000 ∧
    ∃ o, (finish sample_slab sample_slab_running (pass_ok 12288)).out =
      o ++ sleep_interval 1500 :=
  ⟨(sleep_interval_requests_interval 1500).1, (sleep_interval_requests_interval 1500).2.1,
    (sleep_interval_requests_interval 1500).2.2.1 500000 (by decide),
    (sleep_interval_requests_interval 1500).2.2.2 sample_slab sample_slab_running
      (pass_ok 12288) rfl⟩

end Memleak
